import Mathlib

/-!
Verification development for the `mooremachine` Moore-FSM library.

The development shallowly embeds `lib/fsm.js` (the handle-based engine:
`FSM.prototype._gotoState`, `FSMStateHandle`) and the `FSM.wrap` async-callback
adapter.  JavaScript objects with identity (state handles) live in an explicit
store indexed by `Nat`; mutation is explicit state passing on a `Machine`
record; a thrown exception is an `Option JsErr` that propagates outward while
all mutations performed so far persist (as in JavaScript).  State entry
functions are modelled as lists of primitive actions (`Action`), covering
everything an entry function can do through its state handle.  An event trace
(`TraceEv`) records the order of primitive effects, so that "A happens before
B" claims become statements about trace decomposition.
-/

namespace Moore

/-- Model of JavaScript `s.split(".")` on the character list of a string. -/
def splitChars : List Char → List (List Char)
  | [] => [[]]
  | c :: rest =>
    if c = '.' then [] :: splitChars rest
    else
      match splitChars rest with
      | [] => [[c]]
      | g :: gs => (c :: g) :: gs

/-- Model of JavaScript `s.split(".")` : split a string on dots.
`"a.b"` gives `["a", "b"]`, `"a"` gives `["a"]`, `""` gives `[""]`. -/
def splitDot (s : String) : List String :=
  (splitChars s.data).map (fun cs => String.mk cs)

/-- JavaScript string coercion of a possibly-`undefined` string value
(used when an `undefined` field is concatenated into a message). -/
def optStr : Option String → String
  | none => "undefined"
  | some s => s

/-- Trace of primitive observable effects, in execution order.  Used to state
ordering properties ("tear-down precedes entry", "entered in call order"). -/
inductive TraceEv where
  /-- `emitter.removeListener(evt, cb)` performed during handle disconnect. -/
  | removedListener (emitter : Nat) (evt : String) (cb : Nat)
  /-- `clearTimeout(t)` performed during handle disconnect. -/
  | clearedTimeout (t : Nat)
  /-- `clearInterval(t)` performed during handle disconnect. -/
  | clearedInterval (t : Nat)
  /-- `clearImmediate(t)` performed during handle disconnect. -/
  | clearedImmediate (t : Nat)
  /-- `this.fsm_state = state` : the transition target became current. -/
  | committed (s : String)
  /-- `f.call(this, this.fsm_handle)` : the entry function started running. -/
  | entryStart (s : String)
  /-- a `FSMStateHandle.gotoState` call passed its checks (the point where
  `fsh_valid` flips and `fsh_nextState` is recorded). -/
  | gotoCalled (s : String)
  /-- `emit('stateChanged', s)` performed by the deferred flush callback. -/
  | emittedEv (s : String)
deriving DecidableEq

/-- One `FSMStateHandle` object (fields as in the source constructor). -/
structure HandleRec where
  fsh_state : String
  fsh_valid : Bool
  fsh_link : Option Nat
  fsh_listeners : List (Nat × String × Nat)
  fsh_timeouts : List Nat
  fsh_intervals : List Nat
  fsh_immediates : List Nat
  fsh_validTransitions : Option (List String)
  fsh_nextState : Option String
deriving DecidableEq

/-- The FSM instance together with the host environment it mutates:
the handle store, the listeners currently registered on emitters
(emitter id `0` is the FSM instance itself), the live timer tokens of each
kind, fresh-token counters (JavaScript closures and timer handles are
distinct objects), the pending-immediate flag for the deferred
`stateChanged` flush, the log of `stateChanged` emissions, and the
effect trace. -/
structure Machine where
  fsm_state : Option String
  fsm_handle : Option Nat
  fsm_history : List String
  fsm_inTransition : Bool
  fsm_nextState : Option String
  fsm_toEmit : List String
  fsm_allStateEvents : List String
  handles : List HandleRec
  activeListeners : List (Nat × String × Nat)
  activeTimeouts : List Nat
  activeIntervals : List Nat
  activeImmediates : List Nat
  nextCb : Nat
  nextTimer : Nat
  flushScheduled : Bool
  emitted : List String
  trace : List TraceEv
deriving DecidableEq

/-- Primitive statements a state entry function can execute, each through the
state handle `S` it receives (callback bodies are opaque; fresh callback
objects are modelled by fresh tokens). -/
inductive Action where
  /-- `S.on(obj, evt, cb)` with `obj` an emitter id (`0` = the FSM itself). -/
  | on (emitter : Nat) (evt : String)
  /-- `S.timeout(ms, cb)`. -/
  | timeout (ms : Nat)
  /-- `S.interval(ms, cb)`. -/
  | interval (ms : Nat)
  /-- `S.immediate(cb)`. -/
  | immediate
  /-- `S.validTransitions(list)`. -/
  | validTransitions (allowed : List String)
  /-- `S.gotoState(target)`. -/
  | goto (target : String)
  /-- `throw new Error(msg)` from user code in the entry function. -/
  | throwErr (msg : String)
deriving DecidableEq

/-- The entry function of a root state: its body and its sub-states
(sub-state entry functions are attributes on the parent entry function,
keyed by the sub-state's leaf name). -/
structure EntryDef where
  body : List Action
  subs : List (String × List Action)
deriving DecidableEq

/-- The state table of an FSM subclass: `state_X` entry functions keyed by
root state name `X`. -/
structure MachineClass where
  states : List (String × EntryDef)
deriving DecidableEq

/-- A thrown JavaScript exception, or a model artifact. -/
inductive JsErr where
  /-- `throw new Error(msg)`. -/
  | err (msg : String)
  /-- an `assert-plus` assertion failure (`assert.ok`). -/
  | assertFailed
  /-- model artifact: interpreter fuel exhausted. -/
  | outOfFuel
  /-- model artifact: a handle id not present in the store. -/
  | badHandleRef
deriving DecidableEq

/-- Model of the `FSMStateHandle` constructor: a fresh, valid handle for
`state` whose `fsh_link` is the given previous handle. -/
def newHandle (state : String) (link : Option Nat) : HandleRec where
  fsh_state := state
  fsh_valid := true
  fsh_link := link
  fsh_listeners := []
  fsh_timeouts := []
  fsh_intervals := []
  fsh_immediates := []
  fsh_validTransitions := none
  fsh_nextState := none

/-- Lookup in an association list keyed by strings (models JavaScript
property lookup on the state table / on an entry function's attributes). -/
def assocLookup {α : Type} : List (String × α) → String → Option α
  | [], _ => none
  | (k, v) :: rest, key => if k = key then some v else assocLookup rest key

/-- Number of listeners currently on the FSM's own emitter for `evt`
(models `self.listeners(evt).length` in the all-state-event check). -/
def listenersCount (σ : Machine) (evt : String) : Nat :=
  (σ.activeListeners.filter (fun tr => tr.1 == 0 && tr.2.1 == evt)).length

/-- Model of `fsm_history.push(state); if (length >= 8) shift()`. -/
def pushHistory (h : List String) (s : String) : List String :=
  let h' := h ++ [s]
  if h'.length ≥ 8 then h'.tail else h'

/-- Remove the elements of `xs` from `l`, one occurrence each, in order
(models a loop of `removeListener` / `clearTimeout` calls). -/
def removeAll {α : Type} [DecidableEq α] (l : List α) (xs : List α) : List α :=
  List.foldl (fun acc x => acc.erase x) l xs

/-- The non-cascading part of `FSMStateHandle.prototype.disconnect` applied
to the handle record `hr` stored at `hid`: remove every recorded listener
from its emitter, cancel every recorded timer of each kind, and clear the
handle's collections. -/
def disconnectOne (σ : Machine) (hid : Nat) (hr : HandleRec) : Machine :=
  { σ with
    activeListeners := removeAll σ.activeListeners hr.fsh_listeners,
    activeTimeouts := removeAll σ.activeTimeouts hr.fsh_timeouts,
    activeIntervals := removeAll σ.activeIntervals hr.fsh_intervals,
    activeImmediates := removeAll σ.activeImmediates hr.fsh_immediates,
    trace := σ.trace
      ++ hr.fsh_listeners.map (fun l => TraceEv.removedListener l.1 l.2.1 l.2.2)
      ++ hr.fsh_timeouts.map TraceEv.clearedTimeout
      ++ hr.fsh_intervals.map TraceEv.clearedInterval
      ++ hr.fsh_immediates.map TraceEv.clearedImmediate,
    handles := σ.handles.set hid
      { hr with fsh_listeners := [], fsh_timeouts := [],
                fsh_intervals := [], fsh_immediates := [] } }

/-- Model of `FSMStateHandle.prototype.disconnect`: the per-handle clean-up,
then the cascade to `link.disconnect()`.  The first argument is recursion
fuel (the chain is finite; callers pass the store size). -/
def disconnectChain : Nat → Machine → Nat → Machine
  | 0, σ, _ => σ
  | fuel + 1, σ, hid =>
    match σ.handles[hid]? with
    | none => σ
    | some hr =>
      match hr.fsh_link with
      | none => disconnectOne σ hid hr
      | some l => disconnectChain fuel (disconnectOne σ hid hr) l

/-- All resources of one kind recorded along a handle's `link` chain,
outermost handle first (selector picks the handle field). -/
def chainResources {α : Type} (sel : HandleRec → List α) : Nat → Machine → Nat → List α
  | 0, _, _ => []
  | fuel + 1, σ, hid =>
    match σ.handles[hid]? with
    | none => []
    | some hr =>
      sel hr ++ (match hr.fsh_link with
                 | none => []
                 | some l => chainResources sel fuel σ l)

/-- Well-formedness of a handle chain: every handle in the chain exists and
each `link` points to a strictly earlier store slot (true by construction:
stores only grow and a new handle links to the then-current one). -/
def chainOk : Nat → Machine → Nat → Bool
  | 0, _, _ => false
  | fuel + 1, σ, hid =>
    match σ.handles[hid]? with
    | none => false
    | some hr =>
      match hr.fsh_link with
      | none => true
      | some l => decide (l < hid) && chainOk fuel σ l

/-- The scope tear-down boundary at the top of `FSM.prototype._gotoState`:
split the current state and the target on `.`; if the root segments differ
and a live handle exists, disconnect it (cascading through its chain) and
clear `fsm_handle`; otherwise leave the scope untouched. -/
def teardown (σ : Machine) (target : String) : Machine :=
  let parts := splitDot (σ.fsm_state.getD "")
  let newParts := splitDot target
  if parts.headD "" ≠ newParts.headD "" then
    match σ.fsm_handle with
    | some h => { disconnectChain σ.handles.length σ h with fsm_handle := none }
    | none => σ
  else σ

/-- Unfolding equation for `disconnectChain` at an existing slot. -/
theorem disconnectChain_succ_some {σ : Machine} {hid : Nat} {hr : HandleRec}
    (fuel : Nat) (hh : σ.handles[hid]? = some hr) :
    disconnectChain (fuel + 1) σ hid =
      match hr.fsh_link with
      | none => disconnectOne σ hid hr
      | some l => disconnectChain fuel (disconnectOne σ hid hr) l := by
  simp only [disconnectChain, hh]

/-- Unfolding equation for `chainResources` at an existing slot. -/
theorem chainResources_succ_some {α : Type} (sel : HandleRec → List α)
    {σ : Machine} {hid : Nat} {hr : HandleRec}
    (fuel : Nat) (hh : σ.handles[hid]? = some hr) :
    chainResources sel (fuel + 1) σ hid =
      sel hr ++ (match hr.fsh_link with
                 | none => []
                 | some l => chainResources sel fuel σ l) := by
  simp only [chainResources, hh]

/-- Unfolding equation for `chainOk` at an existing slot. -/
theorem chainOk_succ_some {σ : Machine} {hid : Nat} {hr : HandleRec}
    (fuel : Nat) (hh : σ.handles[hid]? = some hr) :
    chainOk (fuel + 1) σ hid =
      (match hr.fsh_link with
       | none => true
       | some l => decide (l < hid) && chainOk fuel σ l) := by
  simp only [chainOk, hh]

/-- Model of `FSMStateHandle.prototype.gotoState` up to (not including) the
delegation to `fsm._gotoState`: the already-used check, the
`validTransitions` check, then flip `fsh_valid` and record `fsh_nextState`. -/
def handleCheck (σ : Machine) (hid : Nat) (target : String) : Machine × Option JsErr :=
  match σ.handles[hid]? with
  | none => (σ, some JsErr.badHandleRef)
  | some hr =>
    if hr.fsh_valid = false then
      (σ, some (JsErr.err ("FSM attempted to leave state " ++ hr.fsh_state
        ++ " towards " ++ target
        ++ " via a handle that was already used to enter state "
        ++ optStr hr.fsh_nextState)))
    else
      match hr.fsh_validTransitions with
      | some vts =>
        if target ∈ vts then
          ({ σ with
             handles := σ.handles.set hid
               { hr with fsh_valid := false, fsh_nextState := some target },
             trace := σ.trace ++ [TraceEv.gotoCalled target] }, none)
        else
          (σ, some (JsErr.err ("Invalid FSM transition: " ++ hr.fsh_state
            ++ " => " ++ target)))
      | none =>
        ({ σ with
           handles := σ.handles.set hid
             { hr with fsh_valid := false, fsh_nextState := some target },
           trace := σ.trace ++ [TraceEv.gotoCalled target] }, none)

/-- An interpreter request: `goto` is `FSM.prototype._gotoState`; `commit` is
the part of `_gotoState` after resolution succeeds (shared by the root and
sub-state branches); `entry` runs an entry function body; `act` runs one
statement of an entry function. -/
inductive Call where
  | goto (target : String)
  | commit (target : String) (body : List Action)
  | entry (acts : List Action) (hid : Nat)
  | act (a : Action) (hid : Nat)

/-- The engine.  `Call.goto` is `FSM.prototype._gotoState` line by line:
the re-entrancy guard, the root-boundary scope tear-down, resolution (with
the exact error messages), then `Call.commit`: commit `fsm_state`, allocate
the linked handle, push history, run the entry function with
`fsm_inTransition` set, the all-state-event check, the deferred-emission
push and scheduling, and the queued-next-state drain.  Fuel only bounds
recursion depth; every claim is conditioned on a non-`outOfFuel` outcome. -/
def step (C : MachineClass) : Nat → Call → Machine → Machine × Option JsErr
  | 0, _, σ => (σ, some JsErr.outOfFuel)
  | fuel + 1, Call.goto target, σ =>
    if σ.fsm_inTransition then
      match σ.fsm_nextState with
      | some _ => (σ, some JsErr.assertFailed)
      | none => ({ σ with fsm_nextState := some target }, none)
    else
      let newParts := splitDot target
      let σ1 := teardown σ target
      match assocLookup C.states (newParts.headD "") with
      | none => (σ1, some (JsErr.err ("Unknown FSM state: " ++ target)))
      | some ed =>
        match newParts[1]? with
        | none => step C fuel (Call.commit target ed.body) σ1
        | some sub =>
          match assocLookup ed.subs sub with
          | none => (σ1, some (JsErr.err ("Unknown FSM sub-state: " ++ target)))
          | some b => step C fuel (Call.commit target b) σ1
  | fuel + 1, Call.commit target body, σ =>
    let σa := { σ with fsm_state := some target,
                       trace := σ.trace ++ [TraceEv.committed target] }
    let hid := σa.handles.length
    let σb := { σa with
      handles := σa.handles ++ [newHandle target σa.fsm_handle],
      fsm_handle := some hid }
    let σc := { σb with fsm_history := pushHistory σb.fsm_history target }
    let σd := { σc with fsm_inTransition := true,
                        trace := σc.trace ++ [TraceEv.entryStart target] }
    match step C fuel (Call.entry body hid) σd with
    | (σe, some e) => (σe, some e)
    | (σe, none) =>
      let σf := { σe with fsm_inTransition := false }
      match σf.fsm_allStateEvents.find? (fun evt => listenersCount σf evt == 0) with
      | some evt =>
        (σf, some (JsErr.err ("FSM consistency error: state entry function for \""
          ++ target ++ "\" did not add a handler for all-state event \""
          ++ evt ++ "\"")))
      | none =>
        let σg := { σf with fsm_toEmit := σf.fsm_toEmit ++ [target] }
        let σh := { σg with flushScheduled :=
          if σg.fsm_toEmit.length == 1 then true else σg.flushScheduled }
        match σh.fsm_nextState with
        | some nxt => step C fuel (Call.goto nxt) { σh with fsm_nextState := none }
        | none => (σh, none)
  | fuel + 1, Call.entry acts hid, σ =>
    match acts with
    | [] => (σ, none)
    | a :: rest =>
      match step C fuel (Call.act a hid) σ with
      | (σ1, some e) => (σ1, some e)
      | (σ1, none) => step C fuel (Call.entry rest hid) σ1
  | fuel + 1, Call.act a hid, σ =>
    match a with
    | Action.on emitter evt =>
      match σ.handles[hid]? with
      | none => (σ, some JsErr.badHandleRef)
      | some hr =>
        let cb := σ.nextCb
        ({ σ with
           nextCb := cb + 1,
           activeListeners := σ.activeListeners ++ [(emitter, evt, cb)],
           handles := σ.handles.set hid
             { hr with fsh_listeners := hr.fsh_listeners ++ [(emitter, evt, cb)] } },
         none)
    | Action.timeout _ms =>
      match σ.handles[hid]? with
      | none => (σ, some JsErr.badHandleRef)
      | some hr =>
        let tok := σ.nextTimer
        ({ σ with
           nextTimer := tok + 1,
           activeTimeouts := σ.activeTimeouts ++ [tok],
           handles := σ.handles.set hid
             { hr with fsh_timeouts := hr.fsh_timeouts ++ [tok] } }, none)
    | Action.interval _ms =>
      match σ.handles[hid]? with
      | none => (σ, some JsErr.badHandleRef)
      | some hr =>
        let tok := σ.nextTimer
        ({ σ with
           nextTimer := tok + 1,
           activeIntervals := σ.activeIntervals ++ [tok],
           handles := σ.handles.set hid
             { hr with fsh_intervals := hr.fsh_intervals ++ [tok] } }, none)
    | Action.immediate =>
      match σ.handles[hid]? with
      | none => (σ, some JsErr.badHandleRef)
      | some hr =>
        let tok := σ.nextTimer
        ({ σ with
           nextTimer := tok + 1,
           activeImmediates := σ.activeImmediates ++ [tok],
           handles := σ.handles.set hid
             { hr with fsh_immediates := hr.fsh_immediates ++ [tok] } }, none)
    | Action.validTransitions l =>
      match σ.handles[hid]? with
      | none => (σ, some JsErr.badHandleRef)
      | some hr =>
        ({ σ with
           handles := σ.handles.set hid
             { hr with fsh_validTransitions := some l } }, none)
    | Action.goto t =>
      match handleCheck σ hid t with
      | (σ1, some e) => (σ1, some e)
      | (σ1, none) => step C fuel (Call.goto t) σ1
    | Action.throwErr m => (σ, some (JsErr.err m))

/-- Model of `FSMStateHandle.prototype.gotoState` called from outside a
transition (e.g. from an event listener): the handle checks followed by the
delegation `this.fsh_fsm._gotoState(state)`. -/
def handleGotoState (C : MachineClass) (fuel : Nat) (σ : Machine) (hid : Nat)
    (target : String) : Machine × Option JsErr :=
  match handleCheck σ hid target with
  | (σ1, some e) => (σ1, some e)
  | (σ1, none) => step C fuel (Call.goto target) σ1

/-- The FSM instance state right after the field initialisation in the `FSM`
constructor, before the initial `_gotoState` (with `fsm_allStateEvents` as
set by `allStateEvent` calls made before delegating to the constructor). -/
def initMachine (allSE : List String) : Machine where
  fsm_state := none
  fsm_handle := none
  fsm_history := []
  fsm_inTransition := false
  fsm_nextState := none
  fsm_toEmit := []
  fsm_allStateEvents := allSE
  handles := []
  activeListeners := []
  activeTimeouts := []
  activeIntervals := []
  activeImmediates := []
  nextCb := 0
  nextTimer := 0
  flushScheduled := false
  emitted := []
  trace := []

/-- Model of the `FSM` constructor: initialise the fields, then invoke the
initial transition. -/
def construct (C : MachineClass) (fuel : Nat) (allSE : List String)
    (defState : String) : Machine × Option JsErr :=
  step C fuel (Call.goto defState) (initMachine allSE)

/-- Model of the deferred-emission immediate callback: swap out `fsm_toEmit`
and emit `stateChanged` once per queued name, in order.  A no-op when no
flush is pending. -/
def runFlush (σ : Machine) : Machine :=
  if σ.flushScheduled then
    { σ with fsm_toEmit := [],
             emitted := σ.emitted ++ σ.fsm_toEmit,
             trace := σ.trace ++ σ.fsm_toEmit.map TraceEv.emittedEv,
             flushScheduled := false }
  else σ

/-- The committed transition targets recorded in a trace fragment. -/
def committedOf (Δ : List TraceEv) : List String :=
  Δ.filterMap (fun e => match e with | TraceEv.committed s => some s | _ => none)

/-- The successful `gotoState` calls recorded in a trace fragment. -/
def gotoCalledOf (Δ : List TraceEv) : List String :=
  Δ.filterMap (fun e => match e with | TraceEv.gotoCalled s => some s | _ => none)

/-! ### Trace bookkeeping lemmas -/

theorem committedOf_append (a b : List TraceEv) :
    committedOf (a ++ b) = committedOf a ++ committedOf b := by
  simp [committedOf]

theorem gotoCalledOf_append (a b : List TraceEv) :
    gotoCalledOf (a ++ b) = gotoCalledOf a ++ gotoCalledOf b := by
  simp [gotoCalledOf]

theorem committedOf_removedListener (l : List (Nat × String × Nat)) :
    committedOf (l.map (fun x => TraceEv.removedListener x.1 x.2.1 x.2.2)) = [] := by
  simp [committedOf, List.filterMap_eq_nil_iff]

theorem committedOf_clearedTimeout (l : List Nat) :
    committedOf (l.map TraceEv.clearedTimeout) = [] := by
  simp [committedOf, List.filterMap_eq_nil_iff]

theorem committedOf_clearedInterval (l : List Nat) :
    committedOf (l.map TraceEv.clearedInterval) = [] := by
  simp [committedOf, List.filterMap_eq_nil_iff]

theorem committedOf_clearedImmediate (l : List Nat) :
    committedOf (l.map TraceEv.clearedImmediate) = [] := by
  simp [committedOf, List.filterMap_eq_nil_iff]

theorem gotoCalledOf_removedListener (l : List (Nat × String × Nat)) :
    gotoCalledOf (l.map (fun x => TraceEv.removedListener x.1 x.2.1 x.2.2)) = [] := by
  simp [gotoCalledOf, List.filterMap_eq_nil_iff]

theorem gotoCalledOf_clearedTimeout (l : List Nat) :
    gotoCalledOf (l.map TraceEv.clearedTimeout) = [] := by
  simp [gotoCalledOf, List.filterMap_eq_nil_iff]

theorem gotoCalledOf_clearedInterval (l : List Nat) :
    gotoCalledOf (l.map TraceEv.clearedInterval) = [] := by
  simp [gotoCalledOf, List.filterMap_eq_nil_iff]

theorem gotoCalledOf_clearedImmediate (l : List Nat) :
    gotoCalledOf (l.map TraceEv.clearedImmediate) = [] := by
  simp [gotoCalledOf, List.filterMap_eq_nil_iff]

/-! ### `removeAll` lemmas (the erase loops of `disconnect`) -/

theorem removeAll_nil {α : Type} [DecidableEq α] (l : List α) :
    removeAll l [] = l := rfl

theorem removeAll_cons {α : Type} [DecidableEq α] (l : List α) (x : α) (xs : List α) :
    removeAll l (x :: xs) = removeAll (l.erase x) xs := rfl

theorem removeAll_subset {α : Type} [DecidableEq α] (xs : List α) :
    ∀ l : List α, removeAll l xs ⊆ l := by
  induction xs with
  | nil => intro l; simp [removeAll_nil]
  | cons x xs ih =>
    intro l
    rw [removeAll_cons]
    exact fun a ha => List.erase_subset x l (ih (l.erase x) ha)

theorem Nodup.removeAll {α : Type} [DecidableEq α] (xs : List α) :
    ∀ l : List α, l.Nodup → (Moore.removeAll l xs).Nodup := by
  induction xs with
  | nil => intro l h; simpa [removeAll_nil] using h
  | cons x xs ih =>
    intro l h
    rw [removeAll_cons]
    exact ih _ (h.erase x)

theorem not_mem_removeAll_of_not_mem {α : Type} [DecidableEq α]
    {l : List α} {xs : List α} {a : α} (h : a ∉ l) : a ∉ removeAll l xs :=
  fun hmem => h (removeAll_subset xs l hmem)

theorem not_mem_removeAll_of_mem {α : Type} [DecidableEq α] (xs : List α) :
    ∀ l : List α, l.Nodup → ∀ a ∈ xs, a ∉ removeAll l xs := by
  induction xs with
  | nil => intro l _ a ha; simp at ha
  | cons x xs ih =>
    intro l hnd a ha
    rw [removeAll_cons]
    rcases List.mem_cons.mp ha with rfl | ha'
    · exact not_mem_removeAll_of_not_mem (hnd.not_mem_erase)
    · exact ih _ (hnd.erase x) a ha'

/-! ### Silent operations

An operation is *silent* when it commits no transition, records no
`gotoState`, emits nothing, leaves the emission queue and the transition
flags untouched. The scope tear-down is silent: it only removes listeners
and cancels timers. -/

/-- The machine-level footprint of a silent operation. -/
def SilentOk (σ σ' : Machine) : Prop :=
  σ'.fsm_state = σ.fsm_state ∧ σ'.fsm_inTransition = σ.fsm_inTransition ∧
  σ'.fsm_nextState = σ.fsm_nextState ∧ σ'.fsm_toEmit = σ.fsm_toEmit ∧
  σ'.emitted = σ.emitted ∧ σ'.flushScheduled = σ.flushScheduled ∧
  ∃ Δ, σ'.trace = σ.trace ++ Δ ∧ committedOf Δ = [] ∧ gotoCalledOf Δ = []

theorem silentOk_refl (σ : Machine) : SilentOk σ σ :=
  ⟨rfl, rfl, rfl, rfl, rfl, rfl, [], by simp, rfl, rfl⟩

theorem silentOk_trans {σ1 σ2 σ3 : Machine}
    (h12 : SilentOk σ1 σ2) (h23 : SilentOk σ2 σ3) : SilentOk σ1 σ3 := by
  obtain ⟨a1, a2, a3, a4, a5, a6, Δ1, ht1, hc1, hg1⟩ := h12
  obtain ⟨b1, b2, b3, b4, b5, b6, Δ2, ht2, hc2, hg2⟩ := h23
  refine ⟨b1.trans a1, b2.trans a2, b3.trans a3, b4.trans a4, b5.trans a5,
    b6.trans a6, Δ1 ++ Δ2, ?_, ?_, ?_⟩
  · rw [ht2, ht1, List.append_assoc]
  · rw [committedOf_append, hc1, hc2]; rfl
  · rw [gotoCalledOf_append, hg1, hg2]; rfl

theorem disconnectOne_silent (σ : Machine) (hid : Nat) (hr : HandleRec) :
    SilentOk σ (disconnectOne σ hid hr) := by
  refine ⟨rfl, rfl, rfl, rfl, rfl, rfl,
    hr.fsh_listeners.map (fun l => TraceEv.removedListener l.1 l.2.1 l.2.2)
      ++ hr.fsh_timeouts.map TraceEv.clearedTimeout
      ++ hr.fsh_intervals.map TraceEv.clearedInterval
      ++ hr.fsh_immediates.map TraceEv.clearedImmediate, ?_, ?_, ?_⟩
  · simp [disconnectOne]
  · simp [committedOf_append, committedOf_removedListener,
      committedOf_clearedTimeout, committedOf_clearedInterval,
      committedOf_clearedImmediate]
  · simp [gotoCalledOf_append, gotoCalledOf_removedListener,
      gotoCalledOf_clearedTimeout, gotoCalledOf_clearedInterval,
      gotoCalledOf_clearedImmediate]

theorem disconnectChain_silent (fuel : Nat) :
    ∀ (σ : Machine) (hid : Nat), SilentOk σ (disconnectChain fuel σ hid) := by
  induction fuel with
  | zero => intro σ hid; exact silentOk_refl σ
  | succ fuel ih =>
    intro σ hid
    rw [disconnectChain]
    cases hh : σ.handles[hid]? with
    | none => exact silentOk_refl σ
    | some hr =>
      show SilentOk σ (match hr.fsh_link with
        | none => disconnectOne σ hid hr
        | some l => disconnectChain fuel (disconnectOne σ hid hr) l)
      cases hl : hr.fsh_link with
      | none => exact disconnectOne_silent σ hid hr
      | some l => exact silentOk_trans (disconnectOne_silent σ hid hr) (ih _ l)

theorem teardown_silent (σ : Machine) (target : String) :
    SilentOk σ (teardown σ target) := by
  rw [teardown]
  by_cases hb : (splitDot (σ.fsm_state.getD "")).headD ""
      ≠ (splitDot target).headD ""
  · rw [if_pos hb]
    cases hh : σ.fsm_handle with
    | none => exact silentOk_refl σ
    | some h =>
      obtain ⟨a1, a2, a3, a4, a5, a6, Δ, ht, hc, hg⟩ :=
        disconnectChain_silent σ.handles.length σ h
      exact ⟨a1, a2, a3, a4, a5, a6, Δ, ht, hc, hg⟩
  · rw [if_neg hb]
    exact silentOk_refl σ

/-! ### Frame facts: the trace only grows, handle identity is stable -/

/-- The trace of `σ'` extends the trace of `σ`. -/
def TraceExt (σ σ' : Machine) : Prop := ∃ Δ, σ'.trace = σ.trace ++ Δ

theorem traceExt_refl (σ : Machine) : TraceExt σ σ := ⟨[], by simp⟩

theorem traceExt_trans {σ1 σ2 σ3 : Machine}
    (h12 : TraceExt σ1 σ2) (h23 : TraceExt σ2 σ3) : TraceExt σ1 σ3 := by
  obtain ⟨Δ1, h1⟩ := h12
  obtain ⟨Δ2, h2⟩ := h23
  exact ⟨Δ1 ++ Δ2, by rw [h2, h1, List.append_assoc]⟩

theorem SilentOk.toTraceExt {σ σ' : Machine} (h : SilentOk σ σ') : TraceExt σ σ' := by
  obtain ⟨_, _, _, _, _, _, Δ, ht, _, _⟩ := h
  exact ⟨Δ, ht⟩

/-- Handle objects keep their identity across engine steps: an existing store
slot keeps its state name and its link, and once a handle is invalid its
`fsh_valid` and `fsh_nextState` never change again. -/
def SlotStable (σ σ' : Machine) : Prop :=
  ∀ (i : Nat) (hr : HandleRec), σ.handles[i]? = some hr →
    ∃ hr', σ'.handles[i]? = some hr' ∧
    hr'.fsh_state = hr.fsh_state ∧ hr'.fsh_link = hr.fsh_link ∧
    (hr.fsh_valid = false → hr'.fsh_valid = false ∧ hr'.fsh_nextState = hr.fsh_nextState)

theorem slotStable_refl (σ : Machine) : SlotStable σ σ :=
  fun _ hr h => ⟨hr, h, rfl, rfl, fun hv => ⟨hv, rfl⟩⟩

theorem slotStable_trans {σ1 σ2 σ3 : Machine}
    (h12 : SlotStable σ1 σ2) (h23 : SlotStable σ2 σ3) : SlotStable σ1 σ3 := by
  intro i hr h
  obtain ⟨hr2, hh2, hs2, hl2, hf2⟩ := h12 i hr h
  obtain ⟨hr3, hh3, hs3, hl3, hf3⟩ := h23 i hr2 hh2
  refine ⟨hr3, hh3, hs3.trans hs2, hl3.trans hl2, fun hv => ?_⟩
  obtain ⟨hv2, hn2⟩ := hf2 hv
  obtain ⟨hv3, hn3⟩ := hf3 hv2
  exact ⟨hv3, hn3.trans hn2⟩

/-- Updating slot `hid` from `hr` to `hr2` is slot-stable as long as the new
record keeps the state name and the link, and keeps `fsh_valid` and
`fsh_nextState` whenever the old record was already invalid. -/
theorem slotStable_set {σ : Machine} {hid : Nat} {hr : HandleRec} (hr2 : HandleRec)
    (hh : σ.handles[hid]? = some hr)
    (hs : hr2.fsh_state = hr.fsh_state) (hl : hr2.fsh_link = hr.fsh_link)
    (hf : hr.fsh_valid = false →
      hr2.fsh_valid = false ∧ hr2.fsh_nextState = hr.fsh_nextState)
    (σ' : Machine) (hσ' : σ'.handles = σ.handles.set hid hr2) :
    SlotStable σ σ' := by
  intro i hri hi
  by_cases hieq : hid = i
  · subst hieq
    have hlen : hid < σ.handles.length := by
      rcases List.getElem?_eq_some.mp hi with ⟨hlt, _⟩
      exact hlt
    have : hri = hr := by rw [hi] at hh; exact Option.some.inj hh
    subst this
    refine ⟨hr2, ?_, hs, hl, hf⟩
    rw [hσ']
    exact List.getElem?_set_eq_of_lt hr2 hlen
  · refine ⟨hri, ?_, rfl, rfl, fun hv => ⟨hv, rfl⟩⟩
    rw [hσ', List.getElem?_set_ne hieq]
    exact hi

/-- Appending new handles to the store is slot-stable. -/
theorem slotStable_append {σ σ' : Machine} (hs : List.IsPrefix σ.handles σ'.handles) :
    SlotStable σ σ' := by
  intro i hr h
  obtain ⟨tl, htl⟩ := hs
  refine ⟨hr, ?_, rfl, rfl, fun hv => ⟨hv, rfl⟩⟩
  rcases List.getElem?_eq_some.mp h with ⟨hlt, _⟩
  rw [← htl] at *
  rw [List.getElem?_append_left hlt]
  exact h

theorem disconnectOne_slotStable (σ : Machine) (hid : Nat) (hr : HandleRec)
    (hh : σ.handles[hid]? = some hr) : SlotStable σ (disconnectOne σ hid hr) := by
  exact slotStable_set
    { hr with fsh_listeners := [], fsh_timeouts := [],
              fsh_intervals := [], fsh_immediates := [] }
    hh rfl rfl (fun hv => ⟨hv, rfl⟩) _ rfl

theorem disconnectOne_handles_length (σ : Machine) (hid : Nat) (hr : HandleRec) :
    (disconnectOne σ hid hr).handles.length = σ.handles.length := by
  simp [disconnectOne]

theorem disconnectChain_slotStable (fuel : Nat) :
    ∀ (σ : Machine) (hid : Nat), SlotStable σ (disconnectChain fuel σ hid) := by
  induction fuel with
  | zero => intro σ hid; exact slotStable_refl σ
  | succ fuel ih =>
    intro σ hid
    rw [disconnectChain]
    cases hh : σ.handles[hid]? with
    | none => exact slotStable_refl σ
    | some hr =>
      show SlotStable σ (match hr.fsh_link with
        | none => disconnectOne σ hid hr
        | some l => disconnectChain fuel (disconnectOne σ hid hr) l)
      cases hl : hr.fsh_link with
      | none => exact disconnectOne_slotStable σ hid hr hh
      | some l => exact slotStable_trans (disconnectOne_slotStable σ hid hr hh) (ih _ l)

theorem disconnectChain_handles_length (fuel : Nat) :
    ∀ (σ : Machine) (hid : Nat),
      (disconnectChain fuel σ hid).handles.length = σ.handles.length := by
  induction fuel with
  | zero => intro σ hid; rfl
  | succ fuel ih =>
    intro σ hid
    rw [disconnectChain]
    cases hh : σ.handles[hid]? with
    | none => rfl
    | some hr =>
      show (match hr.fsh_link with
        | none => disconnectOne σ hid hr
        | some l => disconnectChain fuel (disconnectOne σ hid hr) l).handles.length
        = σ.handles.length
      cases hl : hr.fsh_link with
      | none => exact disconnectOne_handles_length σ hid hr
      | some l => rw [ih _ l]; exact disconnectOne_handles_length σ hid hr

theorem teardown_slotStable (σ : Machine) (target : String) :
    SlotStable σ (teardown σ target) := by
  rw [teardown]
  by_cases hb : (splitDot (σ.fsm_state.getD "")).headD ""
      ≠ (splitDot target).headD ""
  · rw [if_pos hb]
    cases hh : σ.fsm_handle with
    | none => exact slotStable_refl σ
    | some h =>
      have := disconnectChain_slotStable σ.handles.length σ h
      intro i hr hi
      obtain ⟨hr', hh', a, b, c⟩ := this i hr hi
      exact ⟨hr', hh', a, b, c⟩
  · rw [if_neg hb]
    exact slotStable_refl σ

theorem teardown_handles_length (σ : Machine) (target : String) :
    (teardown σ target).handles.length = σ.handles.length := by
  rw [teardown]
  by_cases hb : (splitDot (σ.fsm_state.getD "")).headD ""
      ≠ (splitDot target).headD ""
  · rw [if_pos hb]
    cases hh : σ.fsm_handle with
    | none => rfl
    | some h => exact disconnectChain_handles_length σ.handles.length σ h
  · rw [if_neg hb]

/-! ### `handleCheck` characterisation -/

theorem handleCheck_invalid {σ : Machine} {hid : Nat} {hr : HandleRec} (t : String)
    (hh : σ.handles[hid]? = some hr) (hv : hr.fsh_valid = false) :
    handleCheck σ hid t = (σ, some (JsErr.err ("FSM attempted to leave state "
      ++ hr.fsh_state ++ " towards " ++ t
      ++ " via a handle that was already used to enter state "
      ++ optStr hr.fsh_nextState))) := by
  simp [handleCheck, hh, hv]

theorem handleCheck_blocked {σ : Machine} {hid : Nat} {hr : HandleRec} {t : String}
    {vts : List String}
    (hh : σ.handles[hid]? = some hr) (hv : hr.fsh_valid = true)
    (hvt : hr.fsh_validTransitions = some vts) (hm : t ∉ vts) :
    handleCheck σ hid t = (σ, some (JsErr.err ("Invalid FSM transition: "
      ++ hr.fsh_state ++ " => " ++ t))) := by
  simp [handleCheck, hh, hv, hvt, hm]

theorem handleCheck_ok {σ : Machine} {hid : Nat} {hr : HandleRec} {t : String}
    (hh : σ.handles[hid]? = some hr) (hv : hr.fsh_valid = true)
    (hvt : hr.fsh_validTransitions = none
      ∨ ∃ vts, hr.fsh_validTransitions = some vts ∧ t ∈ vts) :
    handleCheck σ hid t =
      ({ σ with
         handles := σ.handles.set hid
           { hr with fsh_valid := false, fsh_nextState := some t },
         trace := σ.trace ++ [TraceEv.gotoCalled t] }, none) := by
  rcases hvt with h0 | ⟨vts, h1, h2⟩
  · simp [handleCheck, hh, hv, h0]
  · simp [handleCheck, hh, hv, h1, h2]

theorem handleCheck_success {σ σ1 : Machine} {hid : Nat} {t : String}
    (h : handleCheck σ hid t = (σ1, none)) :
    ∃ hr, σ.handles[hid]? = some hr ∧ hr.fsh_valid = true ∧
      σ1 = { σ with
             handles := σ.handles.set hid
               { hr with fsh_valid := false, fsh_nextState := some t },
             trace := σ.trace ++ [TraceEv.gotoCalled t] } := by
  unfold handleCheck at h
  split at h
  · simp at h
  · rename_i hr hh
    split at h
    · simp at h
    · rename_i hv
      have hv' : hr.fsh_valid = true := by revert hv; cases hr.fsh_valid <;> simp
      split at h
      · split at h
        · injection h with h1 _
          exact ⟨hr, hh, hv', h1.symm⟩
        · simp at h
      · injection h with h1 _
        exact ⟨hr, hh, hv', h1.symm⟩

theorem handleCheck_err {σ σ1 : Machine} {hid : Nat} {t : String} {e : JsErr}
    (h : handleCheck σ hid t = (σ1, some e)) : σ1 = σ := by
  unfold handleCheck at h
  split at h
  · injection h with h1 _; exact h1.symm
  · split at h
    · injection h with h1 _; exact h1.symm
    · split at h
      · split at h
        · simp at h
        · injection h with h1 _; exact h1.symm
      · simp at h

/-- The footprint of a successful `handleCheck` on trace and slots. -/
theorem handleCheck_frame {σ σ1 : Machine} {hid : Nat} {t : String}
    (h : handleCheck σ hid t = (σ1, none)) :
    TraceExt σ σ1 ∧ SlotStable σ σ1 := by
  obtain ⟨hr, hh, hv, hσ1⟩ := handleCheck_success h
  subst hσ1
  constructor
  · exact ⟨[TraceEv.gotoCalled t], by simp⟩
  · exact slotStable_set { hr with fsh_valid := false, fsh_nextState := some t }
      hh rfl rfl (fun hbad => absurd (hv.symm.trans hbad) (by simp)) _ rfl

/-! ### The frame theorem for `step` -/

theorem step_frame (C : MachineClass) :
    ∀ fuel c σ σ' e, step C fuel c σ = (σ', e) →
      TraceExt σ σ' ∧ SlotStable σ σ' := by
  intro fuel
  induction fuel with
  | zero =>
    intro c σ σ' e h
    simp only [step] at h
    injection h with h1 _
    subst h1
    exact ⟨traceExt_refl σ, slotStable_refl σ⟩
  | succ fuel ih =>
    intro c σ σ' e h
    cases c with
    | goto t =>
      simp only [step] at h
      split at h
      · -- re-entrancy guard
        split at h
        · injection h with h1 _; subst h1
          exact ⟨traceExt_refl σ, slotStable_refl σ⟩
        · injection h with h1 _; subst h1
          exact ⟨⟨[], by simp⟩, fun i hr hi => ⟨hr, hi, rfl, rfl, fun hv => ⟨hv, rfl⟩⟩⟩
      · -- tear-down then resolution
        have htd : TraceExt σ (teardown σ t) := (teardown_silent σ t).toTraceExt
        have hsd : SlotStable σ (teardown σ t) := teardown_slotStable σ t
        split at h
        · injection h with h1 _; subst h1; exact ⟨htd, hsd⟩
        · split at h
          · obtain ⟨h1, h2⟩ := ih _ _ _ _ h
            exact ⟨traceExt_trans htd h1, slotStable_trans hsd h2⟩
          · split at h
            · injection h with h1 _; subst h1; exact ⟨htd, hsd⟩
            · obtain ⟨h1, h2⟩ := ih _ _ _ _ h
              exact ⟨traceExt_trans htd h1, slotStable_trans hsd h2⟩
    | commit t body =>
      simp only [step] at h
      split at h
      · -- entry function threw
        rename_i σe e1 heq
        injection h with h1 _; subst h1
        obtain ⟨h1, h2⟩ := ih _ _ _ _ heq
        exact ⟨traceExt_trans ⟨[TraceEv.committed t, TraceEv.entryStart t], by simp⟩ h1,
          slotStable_trans (slotStable_append ⟨[newHandle t σ.fsm_handle], by simp⟩) h2⟩
      · -- entry function returned
        rename_i σe heq
        obtain ⟨h1, h2⟩ := ih _ _ _ _ heq
        have hpre : TraceExt σ σe :=
          traceExt_trans ⟨[TraceEv.committed t, TraceEv.entryStart t], by simp⟩ h1
        have hpre2 : SlotStable σ σe :=
          slotStable_trans (slotStable_append ⟨[newHandle t σ.fsm_handle], by simp⟩) h2
        split at h
        · -- all-state-event check failed
          injection h with h1 _; subst h1
          exact ⟨hpre, hpre2⟩
        · -- check passed: queue emission, maybe drain
          split at h
          · -- drain a queued next state
            obtain ⟨h3, h4⟩ := ih _ _ _ _ h
            obtain ⟨Δ3, hΔ3⟩ := h3
            exact ⟨traceExt_trans hpre ⟨Δ3, hΔ3⟩, slotStable_trans hpre2 (fun i hr hi => h4 i hr hi)⟩
          · injection h with h1 _; subst h1
            exact ⟨hpre, hpre2⟩
    | entry acts hid =>
      simp only [step] at h
      split at h
      · injection h with h1 _; subst h1
        exact ⟨traceExt_refl σ, slotStable_refl σ⟩
      · split at h
        · rename_i σ1 e1 heq
          injection h with h1 _; subst h1
          exact ih _ _ _ _ heq
        · rename_i σ1 heq
          obtain ⟨h1, h2⟩ := ih _ _ _ _ heq
          obtain ⟨h3, h4⟩ := ih _ _ _ _ h
          exact ⟨traceExt_trans h1 h3, slotStable_trans h2 h4⟩
    | act a hid =>
      simp only [step] at h
      split at h
      · -- S.on
        split at h
        · injection h with h1 _; subst h1
          exact ⟨traceExt_refl σ, slotStable_refl σ⟩
        · rename_i hr hh
          injection h with h1 _; subst h1
          refine ⟨⟨[], by simp⟩, ?_⟩
          exact slotStable_set
            { hr with fsh_listeners := hr.fsh_listeners ++ [(_, _, σ.nextCb)] }
            hh rfl rfl (fun hv => ⟨hv, rfl⟩) _ rfl
      · -- S.timeout
        split at h
        · injection h with h1 _; subst h1
          exact ⟨traceExt_refl σ, slotStable_refl σ⟩
        · rename_i hr hh
          injection h with h1 _; subst h1
          refine ⟨⟨[], by simp⟩, ?_⟩
          exact slotStable_set
            { hr with fsh_timeouts := hr.fsh_timeouts ++ [σ.nextTimer] }
            hh rfl rfl (fun hv => ⟨hv, rfl⟩) _ rfl
      · -- S.interval
        split at h
        · injection h with h1 _; subst h1
          exact ⟨traceExt_refl σ, slotStable_refl σ⟩
        · rename_i hr hh
          injection h with h1 _; subst h1
          refine ⟨⟨[], by simp⟩, ?_⟩
          exact slotStable_set
            { hr with fsh_intervals := hr.fsh_intervals ++ [σ.nextTimer] }
            hh rfl rfl (fun hv => ⟨hv, rfl⟩) _ rfl
      · -- S.immediate
        split at h
        · injection h with h1 _; subst h1
          exact ⟨traceExt_refl σ, slotStable_refl σ⟩
        · rename_i hr hh
          injection h with h1 _; subst h1
          refine ⟨⟨[], by simp⟩, ?_⟩
          exact slotStable_set
            { hr with fsh_immediates := hr.fsh_immediates ++ [σ.nextTimer] }
            hh rfl rfl (fun hv => ⟨hv, rfl⟩) _ rfl
      · -- S.validTransitions
        split at h
        · injection h with h1 _; subst h1
          exact ⟨traceExt_refl σ, slotStable_refl σ⟩
        · rename_i hr hh
          injection h with h1 _; subst h1
          refine ⟨⟨[], by simp⟩, ?_⟩
          rename_i l _ _
          exact slotStable_set { hr with fsh_validTransitions := some l }
            hh rfl rfl (fun hv => ⟨hv, rfl⟩) _ rfl
      · -- S.gotoState
        split at h
        · rename_i σ1 e1 heq
          injection h with h1 _
          have h2 := handleCheck_err heq
          subst h2
          subst h1
          exact ⟨traceExt_refl _, slotStable_refl _⟩
        · rename_i σ1 heq
          obtain ⟨h1, h2⟩ := handleCheck_frame heq
          obtain ⟨h3, h4⟩ := ih _ _ _ _ h
          exact ⟨traceExt_trans h1 h3, slotStable_trans h2 h4⟩
      · -- user throw
        injection h with h1 _; subst h1
        exact ⟨traceExt_refl σ, slotStable_refl σ⟩

/-! ### Success characterisation of `step`

`GuardOk` describes a `_gotoState` swallowed by the re-entrancy guard;
`EntryOk` describes entry-function execution (no commits, at most one
successful `gotoState`, which is queued, not performed); `QuietOk` describes
a full transition started outside any entry function: the committed state
names are exactly the target followed by the queued `gotoState` targets, in
call order, and they are appended to the emission queue in that order while
`emitted` itself is untouched. -/

/-- The deferred-flush flag is set exactly when emissions are queued
(true between transitions: the flag is set when the queue becomes nonempty
and cleared when the flush callback empties it). -/
def flushInv (σ : Machine) : Prop := σ.flushScheduled = !σ.fsm_toEmit.isEmpty

/-- Success footprint of the re-entrancy guard. -/
def GuardOk (σ σ' : Machine) (t : String) : Prop :=
  σ.fsm_nextState = none ∧ σ' = { σ with fsm_nextState := some t }

/-- Success footprint of entry-function execution. -/
def EntryOk (σ σ' : Machine) : Prop :=
  σ'.fsm_inTransition = true ∧ σ'.fsm_state = σ.fsm_state ∧
  σ'.emitted = σ.emitted ∧ σ'.fsm_toEmit = σ.fsm_toEmit ∧
  σ'.flushScheduled = σ.flushScheduled ∧
  ∃ Δ, σ'.trace = σ.trace ++ Δ ∧ committedOf Δ = [] ∧
    ((σ'.fsm_nextState = σ.fsm_nextState ∧ gotoCalledOf Δ = []) ∨
     (σ.fsm_nextState = none ∧
       ∃ t, σ'.fsm_nextState = some t ∧ gotoCalledOf Δ = [t]))

/-- Success footprint of a transition performed outside any entry function. -/
def QuietOk (σ σ' : Machine) (t : String) : Prop :=
  σ'.fsm_inTransition = false ∧ σ'.fsm_nextState = none ∧
  σ'.emitted = σ.emitted ∧
  ∃ Δ, σ'.trace = σ.trace ++ Δ ∧ committedOf Δ = t :: gotoCalledOf Δ ∧
    σ'.fsm_toEmit = σ.fsm_toEmit ++ committedOf Δ ∧
    (flushInv σ → flushInv σ')

/-- What a successful `step` guarantees, per request kind and mode. -/
def StepOk : Call → Machine → Machine → Prop
  | Call.goto t, σ, σ' =>
      (σ.fsm_inTransition = true → GuardOk σ σ' t) ∧
      (σ.fsm_inTransition = false → σ.fsm_nextState = none → QuietOk σ σ' t)
  | Call.commit t _, σ, σ' =>
      σ.fsm_inTransition = false → σ.fsm_nextState = none → QuietOk σ σ' t
  | Call.entry _ _, σ, σ' => σ.fsm_inTransition = true → EntryOk σ σ'
  | Call.act _ _, σ, σ' => σ.fsm_inTransition = true → EntryOk σ σ'

theorem entryOk_id {σ σ' : Machine} (hIT : σ.fsm_inTransition = true)
    (h : σ' = σ) : EntryOk σ σ' := by
  subst h
  exact ⟨hIT, rfl, rfl, rfl, rfl, [], by simp, rfl, Or.inl ⟨rfl, rfl⟩⟩

theorem entryOk_trans {σ1 σ2 σ3 : Machine}
    (h12 : EntryOk σ1 σ2) (h23 : EntryOk σ2 σ3) : EntryOk σ1 σ3 := by
  obtain ⟨a1, a2, a3, a4, a5, Δ1, ht1, hc1, hd1⟩ := h12
  obtain ⟨b1, b2, b3, b4, b5, Δ2, ht2, hc2, hd2⟩ := h23
  refine ⟨b1, b2.trans a2, b3.trans a3, b4.trans a4, b5.trans a5,
    Δ1 ++ Δ2, by rw [ht2, ht1, List.append_assoc], ?_, ?_⟩
  · rw [committedOf_append, hc1, hc2]; rfl
  · rw [gotoCalledOf_append]
    rcases hd1 with ⟨hn1, hg1⟩ | ⟨hz1, t1, hn1, hg1⟩
    · rcases hd2 with ⟨hn2, hg2⟩ | ⟨hz2, t2, hn2, hg2⟩
      · exact Or.inl ⟨hn2.trans hn1, by rw [hg1, hg2]; rfl⟩
      · exact Or.inr ⟨hn1 ▸ hz2, t2, hn2, by rw [hg1, hg2]; rfl⟩
    · rcases hd2 with ⟨hn2, hg2⟩ | ⟨hz2, t2, hn2, hg2⟩
      · exact Or.inr ⟨hz1, t1, hn2.trans hn1, by rw [hg1, hg2, List.append_nil]⟩
      · rw [hn1] at hz2; exact absurd hz2 (by simp)

/-- A silent prefix (such as scope tear-down) composes with a quiet
transition. -/
theorem quietOk_of_silent {σ σ1 σ' : Machine} {t : String}
    (hs : SilentOk σ σ1) (hq : QuietOk σ1 σ' t) : QuietOk σ σ' t := by
  obtain ⟨s1, s2, s3, s4, s5, s6, Δs, hts, hcs, hgs⟩ := hs
  obtain ⟨q1, q2, q3, Δq, htq, hcq, heq, hfq⟩ := hq
  refine ⟨q1, q2, q3.trans s5, Δs ++ Δq, ?_, ?_, ?_, ?_⟩
  · rw [htq, hts, List.append_assoc]
  · rw [committedOf_append, gotoCalledOf_append, hcs, hgs, hcq]; rfl
  · rw [heq, s4, committedOf_append, hcs]; rfl
  · intro hf
    have hf1 : flushInv σ1 := by
      unfold flushInv at hf ⊢
      rw [s6, s4, hf]
    exact hfq hf1

theorem flush_flag_push (l : List String) (t : String) (b : Bool)
    (hb : b = !l.isEmpty) :
    (if (l ++ [t]).length == 1 then true else b) = !(l ++ [t]).isEmpty := by
  cases l with
  | nil => simp
  | cons x xs => simp [hb]

theorem committedOf_cons_committed (t : String) (Δ : List TraceEv) :
    committedOf (TraceEv.committed t :: Δ) = t :: committedOf Δ := rfl

theorem committedOf_cons_entryStart (t : String) (Δ : List TraceEv) :
    committedOf (TraceEv.entryStart t :: Δ) = committedOf Δ := rfl

theorem gotoCalledOf_cons_committed (t : String) (Δ : List TraceEv) :
    gotoCalledOf (TraceEv.committed t :: Δ) = gotoCalledOf Δ := rfl

theorem gotoCalledOf_cons_entryStart (t : String) (Δ : List TraceEv) :
    gotoCalledOf (TraceEv.entryStart t :: Δ) = gotoCalledOf Δ := rfl

theorem committedOf_pair (t : String) :
    committedOf [TraceEv.committed t, TraceEv.entryStart t] = [t] := rfl

theorem gotoCalledOf_pair (t : String) :
    gotoCalledOf [TraceEv.committed t, TraceEv.entryStart t] = [] := rfl

theorem committedOf_goto (t : String) :
    committedOf [TraceEv.gotoCalled t] = [] := rfl

theorem gotoCalledOf_goto (t : String) :
    gotoCalledOf [TraceEv.gotoCalled t] = [t] := rfl

set_option maxHeartbeats 1600000 in
theorem step_ok (C : MachineClass) :
    ∀ fuel c σ σ', step C fuel c σ = (σ', none) → StepOk c σ σ' := by
  intro fuel
  induction fuel with
  | zero =>
    intro c σ σ' h
    simp only [step] at h
    simp at h
  | succ fuel ih =>
    intro c σ σ' h
    cases c with
    | goto t =>
      simp only [step] at h
      split at h
      · -- re-entrancy guard
        rename_i hIT
        split at h
        · simp at h
        · rename_i hNS
          injection h with h1 _
          subst h1
          refine ⟨fun _ => ⟨hNS, rfl⟩, fun hIT' _ => ?_⟩
          rw [hIT] at hIT'
          simp at hIT'
      · rename_i hITn
        refine ⟨fun hIT => absurd hIT hITn, fun _ hNS => ?_⟩
        obtain ⟨s1, s2, s3, s4, s5, s6, _, _, _⟩ := teardown_silent σ t
        have hITf : σ.fsm_inTransition = false := by
          revert hITn; cases σ.fsm_inTransition <;> simp
        split at h
        · simp at h
        · split at h
          · exact quietOk_of_silent (teardown_silent σ t)
              (ih _ _ _ h (by rw [s2, hITf]) (by rw [s3, hNS]))
          · split at h
            · simp at h
            · exact quietOk_of_silent (teardown_silent σ t)
                (ih _ _ _ h (by rw [s2, hITf]) (by rw [s3, hNS]))
    | commit t body =>
      simp only [step] at h
      intro hITf hNS
      split at h
      · simp at h
      · rename_i σe heq
        have hEo : EntryOk _ σe := ih _ _ _ heq rfl
        obtain ⟨e1, e2, e3, e4, e5, Δe, hte, hce, hde⟩ := hEo
        split at h
        · simp at h
        · split at h
          · -- drain a queued next state
            rename_i nxt heq2
            have hnxt : σe.fsm_nextState = some nxt := heq2
            rcases hde with ⟨hn1, hg1⟩ | ⟨_, t2, hn2, hg2⟩
            · rw [hnxt, hNS] at hn1; simp at hn1
            · have ht2 : t2 = nxt := by
                rw [hnxt] at hn2; exact (Option.some.inj hn2).symm
              subst ht2
              have hQ := (ih _ _ _ h).2 rfl rfl
              obtain ⟨q1, q2, q3, Δg, htg, hcg, heg, hfg⟩ := hQ
              refine ⟨q1, q2, q3.trans e3,
                [TraceEv.committed t, TraceEv.entryStart t] ++ Δe ++ Δg,
                ?_, ?_, ?_, ?_⟩
              · have htg' : σ'.trace = σe.trace ++ Δg := htg
                rw [htg', hte]
                simp
              · simp only [committedOf_append, gotoCalledOf_append,
                  committedOf_pair, gotoCalledOf_pair, hce, hcg, hg2]
                simp
              · have heg' : σ'.fsm_toEmit = (σe.fsm_toEmit ++ [t]) ++ committedOf Δg := heg
                rw [heg', e4]
                simp [committedOf_append, committedOf_cons_committed,
                  committedOf_cons_entryStart, hce]
              · intro hf
                have hf1 : flushInv { σe with
                    fsm_inTransition := false,
                    fsm_toEmit := σe.fsm_toEmit ++ [t],
                    flushScheduled :=
                      if (σe.fsm_toEmit ++ [t]).length == 1 then true
                      else σe.flushScheduled } := by
                  unfold flushInv
                  exact flush_flag_push σe.fsm_toEmit t σe.flushScheduled
                    (by rw [e5, e4]; exact hf)
                exact hfg hf1
          · -- nothing queued
            rename_i heq2
            have hnxt : σe.fsm_nextState = none := heq2
            rcases hde with ⟨hn1, hg1⟩ | ⟨_, t2, hn2, hg2⟩
            · injection h with h1 _
              subst h1
              refine ⟨rfl, hnxt, e3,
                [TraceEv.committed t, TraceEv.entryStart t] ++ Δe, ?_, ?_, ?_, ?_⟩
              · show σe.trace = σ.trace ++ _
                rw [hte]; simp
              · simp only [committedOf_append, gotoCalledOf_append,
                  committedOf_pair, gotoCalledOf_pair, hce, hg1]
                simp
              · show σe.fsm_toEmit ++ [t] = σ.fsm_toEmit ++ _
                rw [e4]
                simp [committedOf_append, committedOf_cons_committed,
                  committedOf_cons_entryStart, hce]
              · intro hf
                unfold flushInv
                exact flush_flag_push σe.fsm_toEmit t σe.flushScheduled
                  (by rw [e5, e4]; exact hf)
            · rw [hnxt] at hn2; simp at hn2
    | entry acts hid =>
      simp only [step] at h
      intro hIT
      split at h
      · injection h with h1 _
        subst h1
        exact entryOk_id hIT rfl
      · split at h
        · simp at h
        · rename_i σ1 heq
          have hA : EntryOk σ σ1 := ih _ _ _ heq hIT
          exact entryOk_trans hA (ih _ _ _ h hA.1)
    | act a hid =>
      simp only [step] at h
      intro hIT
      split at h
      · -- S.on
        split at h
        · simp at h
        · injection h with h1 _
          subst h1
          exact ⟨hIT, rfl, rfl, rfl, rfl, [], by simp, rfl, Or.inl ⟨rfl, rfl⟩⟩
      · -- S.timeout
        split at h
        · simp at h
        · injection h with h1 _
          subst h1
          exact ⟨hIT, rfl, rfl, rfl, rfl, [], by simp, rfl, Or.inl ⟨rfl, rfl⟩⟩
      · -- S.interval
        split at h
        · simp at h
        · injection h with h1 _
          subst h1
          exact ⟨hIT, rfl, rfl, rfl, rfl, [], by simp, rfl, Or.inl ⟨rfl, rfl⟩⟩
      · -- S.immediate
        split at h
        · simp at h
        · injection h with h1 _
          subst h1
          exact ⟨hIT, rfl, rfl, rfl, rfl, [], by simp, rfl, Or.inl ⟨rfl, rfl⟩⟩
      · -- S.validTransitions
        split at h
        · simp at h
        · injection h with h1 _
          subst h1
          exact ⟨hIT, rfl, rfl, rfl, rfl, [], by simp, rfl, Or.inl ⟨rfl, rfl⟩⟩
      · -- S.gotoState
        rename_i t2
        split at h
        · simp at h
        · rename_i σ1 heq
          obtain ⟨hr, hh, hv, hσ1⟩ := handleCheck_success heq
          subst hσ1
          have hG := (ih _ _ _ h).1 hIT
          obtain ⟨hg1, hg2⟩ := hG
          subst hg2
          refine ⟨hIT, rfl, rfl, rfl, rfl, [TraceEv.gotoCalled t2], by simp, rfl,
            Or.inr ⟨hg1, t2, rfl, rfl⟩⟩
      · -- user throw
        simp at h

/-! ### Entry functions without `gotoState` -/

/-- Whether an entry-function statement is a `gotoState` call. -/
def isGoto : Action → Bool
  | Action.goto _ => true
  | _ => false

/-- Whether an entry-function body contains a `gotoState` call. -/
def hasGoto (acts : List Action) : Bool := acts.any isGoto

theorem step_act_nogoto (C : MachineClass) (fuel : Nat) (a : Action) (hid : Nat)
    (σ σ' : Machine) (e : Option JsErr) (hng : isGoto a = false)
    (h : step C fuel (Call.act a hid) σ = (σ', e)) :
    σ'.fsm_nextState = σ.fsm_nextState ∧ σ'.fsm_history = σ.fsm_history ∧
    ∃ L, σ'.activeListeners = σ.activeListeners ++ L := by
  cases fuel with
  | zero =>
    simp only [step] at h
    injection h with h1 _; subst h1
    exact ⟨rfl, rfl, [], by simp⟩
  | succ fuel =>
    simp only [step] at h
    split at h
    · split at h
      · injection h with h1 _; subst h1; exact ⟨rfl, rfl, [], by simp⟩
      · injection h with h1 _; subst h1
        exact ⟨rfl, rfl, [(_, _, σ.nextCb)], rfl⟩
    · split at h
      · injection h with h1 _; subst h1; exact ⟨rfl, rfl, [], by simp⟩
      · injection h with h1 _; subst h1; exact ⟨rfl, rfl, [], by simp⟩
    · split at h
      · injection h with h1 _; subst h1; exact ⟨rfl, rfl, [], by simp⟩
      · injection h with h1 _; subst h1; exact ⟨rfl, rfl, [], by simp⟩
    · split at h
      · injection h with h1 _; subst h1; exact ⟨rfl, rfl, [], by simp⟩
      · injection h with h1 _; subst h1; exact ⟨rfl, rfl, [], by simp⟩
    · split at h
      · injection h with h1 _; subst h1; exact ⟨rfl, rfl, [], by simp⟩
      · injection h with h1 _; subst h1; exact ⟨rfl, rfl, [], by simp⟩
    · simp [isGoto] at hng
    · injection h with h1 _; subst h1; exact ⟨rfl, rfl, [], by simp⟩

theorem step_entry_nogoto (C : MachineClass) :
    ∀ fuel acts hid (σ σ' : Machine) (e : Option JsErr), hasGoto acts = false →
      step C fuel (Call.entry acts hid) σ = (σ', e) →
      σ'.fsm_nextState = σ.fsm_nextState ∧ σ'.fsm_history = σ.fsm_history ∧
      ∃ L, σ'.activeListeners = σ.activeListeners ++ L := by
  intro fuel
  induction fuel with
  | zero =>
    intro acts hid σ σ' e _ h
    simp only [step] at h
    injection h with h1 _; subst h1
    exact ⟨rfl, rfl, [], by simp⟩
  | succ fuel ih =>
    intro acts hid σ σ' e hng h
    simp only [step] at h
    split at h
    · injection h with h1 _; subst h1
      exact ⟨rfl, rfl, [], by simp⟩
    · rename_i a rest
      have hng' : isGoto a = false ∧ hasGoto rest = false := by
        simpa [hasGoto, Bool.or_eq_false_iff] using hng
      split at h
      · rename_i σ1 e1 heq
        injection h with h1 _; subst h1
        exact step_act_nogoto C fuel a hid σ _ _ hng'.1 heq
      · rename_i σ1 heq
        obtain ⟨n1, i1, L1, hL1⟩ := step_act_nogoto C fuel a hid σ σ1 none hng'.1 heq
        obtain ⟨n2, i2, L2, hL2⟩ := ih rest hid σ1 σ' e hng'.2 h
        exact ⟨n2.trans n1, i2.trans i1, L1 ++ L2,
          by rw [hL2, hL1, List.append_assoc]⟩

/-! ### What `disconnect` removes -/

/-- The listeners recorded along a handle chain. -/
def chainListeners (fuel : Nat) (σ : Machine) (hid : Nat) : List (Nat × String × Nat) :=
  chainResources (fun hr => hr.fsh_listeners) fuel σ hid

/-- The timer tokens of each kind recorded along a handle chain. -/
def chainTimeouts (fuel : Nat) (σ : Machine) (hid : Nat) : List Nat :=
  chainResources (fun hr => hr.fsh_timeouts) fuel σ hid

def chainIntervals (fuel : Nat) (σ : Machine) (hid : Nat) : List Nat :=
  chainResources (fun hr => hr.fsh_intervals) fuel σ hid

def chainImmediates (fuel : Nat) (σ : Machine) (hid : Nat) : List Nat :=
  chainResources (fun hr => hr.fsh_immediates) fuel σ hid

theorem disconnectChain_active_subset (fuel : Nat) :
    ∀ (σ : Machine) (hid : Nat),
      (disconnectChain fuel σ hid).activeListeners ⊆ σ.activeListeners ∧
      (disconnectChain fuel σ hid).activeTimeouts ⊆ σ.activeTimeouts ∧
      (disconnectChain fuel σ hid).activeIntervals ⊆ σ.activeIntervals ∧
      (disconnectChain fuel σ hid).activeImmediates ⊆ σ.activeImmediates := by
  induction fuel with
  | zero =>
    intro σ hid
    exact ⟨fun _ hx => hx, fun _ hx => hx, fun _ hx => hx, fun _ hx => hx⟩
  | succ fuel ih =>
    intro σ hid
    cases hh : σ.handles[hid]? with
    | none =>
      have : disconnectChain (fuel + 1) σ hid = σ := by
        simp only [disconnectChain, hh]
      rw [this]
      exact ⟨fun _ hx => hx, fun _ hx => hx, fun _ hx => hx, fun _ hx => hx⟩
    | some hr =>
      rw [disconnectChain_succ_some fuel hh]
      have hone :
          (disconnectOne σ hid hr).activeListeners ⊆ σ.activeListeners ∧
          (disconnectOne σ hid hr).activeTimeouts ⊆ σ.activeTimeouts ∧
          (disconnectOne σ hid hr).activeIntervals ⊆ σ.activeIntervals ∧
          (disconnectOne σ hid hr).activeImmediates ⊆ σ.activeImmediates :=
        ⟨removeAll_subset _ _, removeAll_subset _ _,
         removeAll_subset _ _, removeAll_subset _ _⟩
      cases hl : hr.fsh_link with
      | none => exact hone
      | some l =>
        obtain ⟨i1, i2, i3, i4⟩ := ih (disconnectOne σ hid hr) l
        exact ⟨fun x hx => hone.1 (i1 hx), fun x hx => hone.2.1 (i2 hx),
          fun x hx => hone.2.2.1 (i3 hx), fun x hx => hone.2.2.2 (i4 hx)⟩

/-- Handle slots other than `hid` are untouched by `disconnectOne`. -/
theorem disconnectOne_handles_other (σ : Machine) (hid : Nat) (hr : HandleRec)
    (j : Nat) (hj : j ≠ hid) :
    (disconnectOne σ hid hr).handles[j]? = σ.handles[j]? := by
  show (σ.handles.set hid _)[j]? = σ.handles[j]?
  exact List.getElem?_set_ne (fun hjj => hj hjj.symm)

/-- Chains and their resource lists only depend on the handle slots below a
bound; a machine agreeing there has the same chain. -/
theorem chain_congr {α : Type} (sel : HandleRec → List α) (fuel : Nat) :
    ∀ (σ σ1 : Machine) (l bound : Nat),
      (∀ j, j < bound → σ1.handles[j]? = σ.handles[j]?) → l < bound →
      chainOk fuel σ l = true →
      chainResources sel fuel σ1 l = chainResources sel fuel σ l ∧
      chainOk fuel σ1 l = true := by
  induction fuel with
  | zero =>
    intro σ σ1 l bound hag hl hok
    simp [chainOk] at hok
  | succ fuel ih =>
    intro σ σ1 l bound hag hl hok
    cases hh : σ.handles[l]? with
    | none =>
      simp only [chainOk, hh] at hok
      exact absurd hok (by simp)
    | some hr =>
      have hh1 : σ1.handles[l]? = some hr := by rw [hag l hl, hh]
      rw [chainOk_succ_some fuel hh] at hok
      rw [chainResources_succ_some sel fuel hh,
          chainResources_succ_some sel fuel hh1,
          chainOk_succ_some fuel hh1]
      cases hlk : hr.fsh_link with
      | none => exact ⟨rfl, rfl⟩
      | some l2 =>
        rw [hlk] at hok
        simp only [Bool.and_eq_true, decide_eq_true_eq] at hok
        obtain ⟨hl2, hok2⟩ := hok
        have hl2b : l2 < bound := lt_trans hl2 hl
        obtain ⟨hres, hok1⟩ := ih σ σ1 l2 bound hag hl2b hok2
        refine ⟨?_, ?_⟩
        · show sel hr ++ chainResources sel fuel σ1 l2
            = sel hr ++ chainResources sel fuel σ l2
          rw [hres]
        · show (decide (l2 < l) && chainOk fuel σ1 l2) = true
          simp [hl2, hok1]

/-- `disconnect` removes every listener and cancels every timer recorded
along the handle chain: none of them is live afterwards.  The `Nodup`
hypotheses hold by construction because callbacks and timer tokens are
fresh objects. -/
theorem disconnectChain_removes (fuel : Nat) :
    ∀ (σ : Machine) (hid : Nat), chainOk fuel σ hid = true →
      σ.activeListeners.Nodup → σ.activeTimeouts.Nodup →
      σ.activeIntervals.Nodup → σ.activeImmediates.Nodup →
      (∀ x ∈ chainListeners fuel σ hid,
        x ∉ (disconnectChain fuel σ hid).activeListeners) ∧
      (∀ x ∈ chainTimeouts fuel σ hid,
        x ∉ (disconnectChain fuel σ hid).activeTimeouts) ∧
      (∀ x ∈ chainIntervals fuel σ hid,
        x ∉ (disconnectChain fuel σ hid).activeIntervals) ∧
      (∀ x ∈ chainImmediates fuel σ hid,
        x ∉ (disconnectChain fuel σ hid).activeImmediates) := by
  induction fuel with
  | zero =>
    intro σ hid hok _ _ _ _
    simp [chainOk] at hok
  | succ fuel ih =>
    intro σ hid hok hn1 hn2 hn3 hn4
    cases hh : σ.handles[hid]? with
    | none =>
      simp only [chainOk, hh] at hok
      exact absurd hok (by simp)
    | some hr =>
      rw [disconnectChain_succ_some fuel hh]
      rw [chainOk_succ_some fuel hh] at hok
      unfold chainListeners chainTimeouts chainIntervals chainImmediates
      rw [chainResources_succ_some _ fuel hh, chainResources_succ_some _ fuel hh,
          chainResources_succ_some _ fuel hh, chainResources_succ_some _ fuel hh]
      cases hlk : hr.fsh_link with
      | none =>
        refine ⟨?_, ?_, ?_, ?_⟩ <;> intro x hx
        · show x ∉ removeAll σ.activeListeners hr.fsh_listeners
          exact not_mem_removeAll_of_mem _ _ hn1 x (by simpa using hx)
        · show x ∉ removeAll σ.activeTimeouts hr.fsh_timeouts
          exact not_mem_removeAll_of_mem _ _ hn2 x (by simpa using hx)
        · show x ∉ removeAll σ.activeIntervals hr.fsh_intervals
          exact not_mem_removeAll_of_mem _ _ hn3 x (by simpa using hx)
        · show x ∉ removeAll σ.activeImmediates hr.fsh_immediates
          exact not_mem_removeAll_of_mem _ _ hn4 x (by simpa using hx)
      | some l =>
        rw [hlk] at hok
        simp only [Bool.and_eq_true, decide_eq_true_eq] at hok
        obtain ⟨hlid, hok2⟩ := hok
        have hag : ∀ j, j < hid →
            (disconnectOne σ hid hr).handles[j]? = σ.handles[j]? :=
          fun j hj => disconnectOne_handles_other σ hid hr j (Nat.ne_of_lt hj)
        have hsub := disconnectChain_active_subset fuel (disconnectOne σ hid hr) l
        have hihl := ih (disconnectOne σ hid hr) l
          ((chain_congr (fun hr => hr.fsh_listeners) fuel σ _ l hid hag hlid hok2).2)
          (Nodup.removeAll _ _ hn1) (Nodup.removeAll _ _ hn2)
          (Nodup.removeAll _ _ hn3) (Nodup.removeAll _ _ hn4)
        refine ⟨?_, ?_, ?_, ?_⟩ <;> intro x hx
        · show x ∉ (disconnectChain fuel (disconnectOne σ hid hr) l).activeListeners
          rcases List.mem_append.mp
              (show x ∈ hr.fsh_listeners ++ chainResources
                (fun hr => hr.fsh_listeners) fuel σ l from hx) with hx1 | hx1
          · exact fun hmem => not_mem_removeAll_of_mem _ _ hn1 x hx1 (hsub.1 hmem)
          · refine hihl.1 x ?_
            unfold chainListeners
            rw [(chain_congr (fun hr => hr.fsh_listeners)
              fuel σ _ l hid hag hlid hok2).1]
            exact hx1
        · show x ∉ (disconnectChain fuel (disconnectOne σ hid hr) l).activeTimeouts
          rcases List.mem_append.mp
              (show x ∈ hr.fsh_timeouts ++ chainResources
                (fun hr => hr.fsh_timeouts) fuel σ l from hx) with hx1 | hx1
          · exact fun hmem => not_mem_removeAll_of_mem _ _ hn2 x hx1 (hsub.2.1 hmem)
          · refine hihl.2.1 x ?_
            unfold chainTimeouts
            rw [(chain_congr (fun hr => hr.fsh_timeouts)
              fuel σ _ l hid hag hlid hok2).1]
            exact hx1
        · show x ∉ (disconnectChain fuel (disconnectOne σ hid hr) l).activeIntervals
          rcases List.mem_append.mp
              (show x ∈ hr.fsh_intervals ++ chainResources
                (fun hr => hr.fsh_intervals) fuel σ l from hx) with hx1 | hx1
          · exact fun hmem => not_mem_removeAll_of_mem _ _ hn3 x hx1 (hsub.2.2.1 hmem)
          · refine hihl.2.2.1 x ?_
            unfold chainIntervals
            rw [(chain_congr (fun hr => hr.fsh_intervals)
              fuel σ _ l hid hag hlid hok2).1]
            exact hx1
        · show x ∉ (disconnectChain fuel (disconnectOne σ hid hr) l).activeImmediates
          rcases List.mem_append.mp
              (show x ∈ hr.fsh_immediates ++ chainResources
                (fun hr => hr.fsh_immediates) fuel σ l from hx) with hx1 | hx1
          · exact fun hmem => not_mem_removeAll_of_mem _ _ hn4 x hx1 (hsub.2.2.2 hmem)
          · refine hihl.2.2.2 x ?_
            unfold chainImmediates
            rw [(chain_congr (fun hr => hr.fsh_immediates)
              fuel σ _ l hid hag hlid hok2).1]
            exact hx1

/-! ### Claim-level helper lemmas -/

/-- Behaviour of the deferred flush when the scheduling invariant holds: it
emits every queued name once, in queue order, and empties the queue. -/
theorem runFlush_spec {σ : Machine} (hf : flushInv σ) :
    (runFlush σ).emitted = σ.emitted ++ σ.fsm_toEmit ∧
    (runFlush σ).fsm_toEmit = [] ∧
    (runFlush σ).trace = σ.trace ++ σ.fsm_toEmit.map TraceEv.emittedEv ∧
    flushInv (runFlush σ) := by
  unfold flushInv at hf
  unfold runFlush
  cases hte : σ.fsm_toEmit with
  | nil =>
    rw [hte] at hf
    simp only [List.isEmpty_nil, Bool.not_true] at hf
    rw [if_neg (by simp [hf])]
    exact ⟨by simp [hte], hte, by simp [hte], by unfold flushInv; rw [hf, hte]; rfl⟩
  | cons x xs =>
    rw [hte] at hf
    simp only [List.isEmpty_cons, Bool.not_false] at hf
    rw [if_pos hf]
    exact ⟨rfl, rfl, rfl, by unfold flushInv; rfl⟩

/-- On a root-boundary transition with a live handle, the tear-down step is
exactly a cascading disconnect of that handle followed by clearing
`fsm_handle`. -/
theorem teardown_eq_differ {σ : Machine} {t : String} {hd : Nat}
    (hdiff : (splitDot (σ.fsm_state.getD "")).headD "" ≠ (splitDot t).headD "")
    (hh : σ.fsm_handle = some hd) :
    teardown σ t
      = { disconnectChain σ.handles.length σ hd with fsm_handle := none } := by
  rw [teardown, if_pos hdiff, hh]

/-- When the root segment does not change, the tear-down step does nothing. -/
theorem teardown_eq_same {σ : Machine} {t : String}
    (hsame : (splitDot (σ.fsm_state.getD "")).headD "" = (splitDot t).headD "") :
    teardown σ t = σ := by
  rw [teardown, if_neg (fun hne => hne hsame)]

/-- On a root-boundary transition the tear-down step always leaves
`fsm_handle` cleared (it disconnects and clears a live handle, and when no
handle was live there was nothing to keep either). -/
theorem teardown_handle_differ {σ : Machine} {t : String}
    (hdiff : (splitDot (σ.fsm_state.getD "")).headD ""
      ≠ (splitDot t).headD "") :
    (teardown σ t).fsm_handle = none := by
  rw [teardown, if_pos hdiff]
  cases hh : σ.fsm_handle with
  | none => exact hh
  | some hd => rfl

/-- A successful transition, started outside any entry function, always runs
through the commit phase on the torn-down machine, with some resolved entry
function body. -/
theorem step_goto_success (C : MachineClass) (fuel : Nat) (t : String)
    (σ σ' : Machine) (hIT : σ.fsm_inTransition = false)
    (h : step C (fuel + 1) (Call.goto t) σ = (σ', none)) :
    ∃ body, step C fuel (Call.commit t body) (teardown σ t) = (σ', none) := by
  simp only [step, hIT] at h
  simp only [Bool.false_eq_true, if_false] at h
  split at h
  · simp at h
  · split at h
    · exact ⟨_, h⟩
    · split at h
      · simp at h
      · exact ⟨_, h⟩

/-- For a single-segment target whose root entry function exists, the
transition routine is teardown followed by the commit phase with that entry
function. -/
theorem step_goto_commit_root (C : MachineClass) (fuel : Nat) (t : String)
    (σ : Machine) {ed : EntryDef}
    (hIT : σ.fsm_inTransition = false)
    (hsplit : splitDot t = [t])
    (hlook : assocLookup C.states t = some ed) :
    step C (fuel + 1) (Call.goto t) σ
      = step C fuel (Call.commit t ed.body) (teardown σ t) := by
  simp only [step, hIT, hsplit]
  simp only [Bool.false_eq_true, if_false]
  simp only [List.headD_cons]
  rw [hlook]
  rfl

/-- The commit phase records the transition and starts the entry function
immediately after: its trace begins with the commit and entry-start marks,
and the freshly allocated handle (stored at the next free slot) is linked to
the handle that was current when the commit began. -/
theorem step_commit_trace (C : MachineClass) (fuel : Nat) (t : String)
    (body : List Action) (σ σ' : Machine)
    (h : step C fuel (Call.commit t body) σ = (σ', none)) :
    (∃ Δ, σ'.trace = σ.trace ++ [TraceEv.committed t, TraceEv.entryStart t] ++ Δ) ∧
    (∃ hr', σ'.handles[σ.handles.length]? = some hr'
      ∧ hr'.fsh_link = σ.fsm_handle) := by
  cases fuel with
  | zero => simp only [step] at h; simp at h
  | succ fuel =>
    simp only [step] at h
    split at h
    · simp at h
    · rename_i σe heq
      obtain ⟨⟨Δe, hte⟩, hslot⟩ := step_frame C fuel _ _ _ _ heq
      have hn : (σ.handles ++ [newHandle t σ.fsm_handle])[σ.handles.length]?
          = some (newHandle t σ.fsm_handle) := by simp
      obtain ⟨hr', hh', _, hl', _⟩ := hslot _ _ hn
      split at h
      · simp at h
      · split at h
        · -- drain
          obtain ⟨⟨Δg, htg⟩, hslot2⟩ := step_frame C fuel _ _ _ _ h
          obtain ⟨hr2, hh2, _, hl2, _⟩ := hslot2 _ _ hh'
          refine ⟨⟨Δe ++ Δg, ?_⟩, ⟨hr2, hh2, ?_⟩⟩
          · have htg' : σ'.trace = σe.trace ++ Δg := htg
            rw [htg', hte]
            simp
          · rw [hl2, hl']
            rfl
        · injection h with h1 _; subst h1
          refine ⟨⟨Δe, ?_⟩, ⟨hr', hh', by rw [hl']; rfl⟩⟩
          show σe.trace = σ.trace
            ++ [TraceEv.committed t, TraceEv.entryStart t] ++ Δe
          rw [hte]
          simp

/-- The commit phase for an entry function with no `gotoState` call: the
state, history, emission queue, fresh handle, and listener set are updated
exactly once, and the machine comes to rest (`inTransition` cleared, nothing
queued). -/
theorem step_commit_nogoto (C : MachineClass) (fuel : Nat) (t : String)
    (body : List Action) (σ σ' : Machine)
    (hng : hasGoto body = false) (hNS : σ.fsm_nextState = none)
    (h : step C fuel (Call.commit t body) σ = (σ', none)) :
    σ'.fsm_state = some t ∧
    σ'.fsm_history = pushHistory σ.fsm_history t ∧
    σ'.fsm_toEmit = σ.fsm_toEmit ++ [t] ∧
    σ'.fsm_inTransition = false ∧
    (∃ Δ, σ'.trace = σ.trace ++ [TraceEv.committed t, TraceEv.entryStart t] ++ Δ) ∧
    (∃ hr', σ'.handles[σ.handles.length]? = some hr'
      ∧ hr'.fsh_link = σ.fsm_handle ∧ hr'.fsh_state = t) ∧
    (∃ L, σ'.activeListeners = σ.activeListeners ++ L) := by
  cases fuel with
  | zero => simp only [step] at h; simp at h
  | succ fuel =>
    simp only [step] at h
    split at h
    · simp at h
    · rename_i σe heq
      have hEo : EntryOk _ σe := step_ok C fuel _ _ _ heq rfl
      obtain ⟨e1, e2, e3, e4, e5, Δe, hte, hce, hde⟩ := hEo
      obtain ⟨nNS, nHist, L, hL⟩ :=
        step_entry_nogoto C fuel body _ _ σe none hng heq
      obtain ⟨⟨_, _⟩, hslot⟩ := step_frame C fuel _ _ _ _ heq
      have hn : (σ.handles ++ [newHandle t σ.fsm_handle])[σ.handles.length]?
          = some (newHandle t σ.fsm_handle) := by simp
      obtain ⟨hr', hh', hs', hl', _⟩ := hslot _ _ hn
      split at h
      · simp at h
      · split at h
        · rename_i nxt heq2
          have hbad : σ.fsm_nextState = some nxt := by
            have h0 : σe.fsm_nextState = some nxt := heq2
            rw [nNS] at h0
            exact h0
          rw [hNS] at hbad
          simp at hbad
        · injection h with h1 _; subst h1
          refine ⟨e2, ?_, ?_, rfl, ⟨Δe, ?_⟩,
            ⟨hr', hh', by rw [hl']; rfl, by rw [hs']; rfl⟩, ⟨L, hL⟩⟩
          · exact nHist
          · show σe.fsm_toEmit ++ [t] = σ.fsm_toEmit ++ [t]
            rw [e4]
          · show σe.trace = σ.trace
              ++ [TraceEv.committed t, TraceEv.entryStart t] ++ Δe
            rw [hte]
            simp

/-! ### The `FSM.wrap` async-callback adapter (`lib/fsm.js`) -/

/-- JavaScript values as far as the adapter cares, with JS truthiness. -/
inductive JSVal where
  | vNull
  | vUndef
  | vBool (b : Bool)
  | vNum (n : Int)
  | vStr (s : String)
  | vObj (id : Nat)
deriving DecidableEq

/-- JavaScript truthiness (`if (err)`). -/
def truthy : JSVal → Bool
  | JSVal.vNull => false
  | JSVal.vUndef => false
  | JSVal.vBool b => b
  | JSVal.vNum n => n != 0
  | JSVal.vStr s => s != ""
  | JSVal.vObj _ => true

/-- The adapter returned by calling the wrapper `fsm_cb_wrapper`: it captures
the wrapper call's receiver (`var self = this`) and its arguments. -/
structure Adapter where
  self : JSVal
  args : List JSVal
deriving DecidableEq

/-- `FSM.wrap(fun)` returns `fsm_cb_wrapper`; calling it with receiver
`recv` and arguments `args` builds the adapter. -/
def fsm_cb_wrapper (recv : JSVal) (args : List JSVal) : Adapter := ⟨recv, args⟩

/-- The call `fun.apply(self, args)` performed by `eve.run()`: the receiver,
the positional arguments, and whether the synthesized callback was appended
as the last argument. -/
structure FunCall where
  receiver : JSVal
  posArgs : List JSVal
  cbAppended : Bool
deriving DecidableEq

/-- `eve.run()` invokes `fun` with the captured receiver and captured
arguments (plus the synthesized callback); the receiver of the `run()` call
itself (`eve`) is ignored. -/
def adapterRun (a : Adapter) (runRecv : JSVal) : FunCall := ⟨a.self, a.args, true⟩

/-- The synthesized callback body: `resArgs.shift()` yields `err`
(`undefined` when called with no arguments); a truthy `err` emits `error`
with it, otherwise `return` is emitted with the remaining arguments. -/
def adapterCb (resArgs : List JSVal) : List (String × List JSVal) :=
  let err := resArgs.headD JSVal.vUndef
  let rest := resArgs.tail
  if truthy err then [("error", [err])] else [("return", rest)]

/-! ### Claims -/

/-- C2: once a handle has been used for a successful transition it is
invalid with the entered state recorded, and every later `gotoState` through
it throws the exact already-used error, naming the handle's state, the
attempted target and the previously entered target, without changing the
machine at all. -/
theorem C2_handle_single_use (C : MachineClass) (fuel : Nat) (σ : Machine)
    (hid : Nat) (t : String) :
    (∀ σ', handleGotoState C fuel σ hid t = (σ', none) →
      ∃ hr', σ'.handles[hid]? = some hr' ∧ hr'.fsh_valid = false ∧
        hr'.fsh_nextState = some t) ∧
    (∀ hr z t2, σ.handles[hid]? = some hr → hr.fsh_valid = false →
      hr.fsh_nextState = some z →
      handleGotoState C fuel σ hid t2 = (σ, some (JsErr.err
        ("FSM attempted to leave state " ++ hr.fsh_state ++ " towards " ++ t2
          ++ " via a handle that was already used to enter state " ++ z)))) := by
  constructor
  · intro σ' hrun
    unfold handleGotoState at hrun
    split at hrun
    · simp at hrun
    · rename_i σ1 hch
      obtain ⟨hr, hh, hv, hσ1⟩ := handleCheck_success hch
      have hlt : hid < σ.handles.length := by
        rcases List.getElem?_eq_some.mp hh with ⟨hlt, _⟩
        exact hlt
      have hs1 : σ1.handles[hid]?
          = some { hr with fsh_valid := false, fsh_nextState := some t } := by
        rw [hσ1]
        exact List.getElem?_set_eq_of_lt _ hlt
      obtain ⟨_, hstable⟩ := step_frame C fuel _ _ _ _ hrun
      obtain ⟨hr', hh', _, _, hfr⟩ := hstable _ _ hs1
      obtain ⟨hv', hn'⟩ := hfr rfl
      exact ⟨hr', hh', hv', hn'⟩
  · intro hr z t2 hh hv hn
    unfold handleGotoState
    rw [handleCheck_invalid t2 hh hv, hn]
    rfl

/-- C6: when a `validTransitions` list is set and the target is absent, the
`gotoState` call throws the exact invalid-transition error and returns the
machine unchanged: same current state, same emission queue, and the handle
record untouched (still valid). -/
theorem C6_validTransitions_enforced (C : MachineClass) (fuel : Nat)
    (σ : Machine) (hid : Nat) (t : String) (hr : HandleRec) (vts : List String)
    (hh : σ.handles[hid]? = some hr) (hv : hr.fsh_valid = true)
    (hvt : hr.fsh_validTransitions = some vts) (hm : t ∉ vts) :
    handleGotoState C fuel σ hid t
      = (σ, some (JsErr.err ("Invalid FSM transition: "
          ++ hr.fsh_state ++ " => " ++ t))) := by
  unfold handleGotoState
  rw [handleCheck_blocked hh hv hvt hm]

/-- C4: a transition requested while `inTransition` is set asserts that no
next state is queued, stores the target, and returns without transitioning;
and across a full `gotoState` started at rest, the committed state names
equal the successful `gotoState` calls, in call order. -/
theorem C4_reentrant_queue_order (C : MachineClass) (fuel : Nat)
    (σ σ' : Machine) (hid : Nat) (t : String) :
    (σ.fsm_inTransition = true → σ.fsm_nextState = none →
      step C (fuel + 1) (Call.goto t) σ
        = ({ σ with fsm_nextState := some t }, none)) ∧
    (σ.fsm_inTransition = true → ∀ q, σ.fsm_nextState = some q →
      step C (fuel + 1) (Call.goto t) σ = (σ, some JsErr.assertFailed)) ∧
    (σ.fsm_inTransition = false → σ.fsm_nextState = none →
      handleGotoState C fuel σ hid t = (σ', none) →
      ∃ Δ, σ'.trace = σ.trace ++ Δ ∧ committedOf Δ = gotoCalledOf Δ) := by
  refine ⟨?_, ?_, ?_⟩
  · intro hIT hNS
    simp [step, hIT, hNS]
  · intro hIT q hNS
    simp [step, hIT, hNS]
  · intro hIT hNS hrun
    unfold handleGotoState at hrun
    split at hrun
    · simp at hrun
    · rename_i σ1 hch
      obtain ⟨hr, hh, hv, hσ1⟩ := handleCheck_success hch
      have hq : QuietOk σ1 σ' t := by
        refine (step_ok C fuel _ _ _ hrun).2 ?_ ?_
        · rw [hσ1]; exact hIT
        · rw [hσ1]; exact hNS
      obtain ⟨_, _, _, Δq, htq, hcq, _, _⟩ := hq
      refine ⟨[TraceEv.gotoCalled t] ++ Δq, ?_, ?_⟩
      · rw [htq, hσ1]
        simp
      · rw [committedOf_append, gotoCalledOf_append, committedOf_goto,
          gotoCalledOf_goto, hcq]
        rfl

/-- C9: the `FSM.wrap` adapter captures the wrapper call's receiver and
arguments; `run()` invokes the wrapped function with exactly those plus the
synthesized callback, regardless of `run()`'s own receiver; the callback
emits `error` with the first argument when it is truthy and `return` with
the remaining arguments when it is falsy (including the no-argument case,
where the shifted `err` is `undefined`). -/
theorem C9_wrap_adapter (recv runRecv err : JSVal) (args rest : List JSVal) :
    adapterRun (fsm_cb_wrapper recv args) runRecv
      = ⟨recv, args, true⟩ ∧
    (truthy err = true → adapterCb (err :: rest) = [("error", [err])]) ∧
    (truthy err = false → adapterCb (err :: rest) = [("return", rest)]) ∧
    adapterCb [] = [("return", [])] := by
  refine ⟨rfl, ?_, ?_, ?_⟩
  · intro h; simp [adapterCb, h]
  · intro h; simp [adapterCb, h]
  · simp [adapterCb, truthy]

/-- C3: a transition burst emits nothing synchronously (`emitted` is
untouched); it appends exactly one entry per committed transition, in commit
order, to the deferred queue; the flush is pending exactly when the queue is
nonempty (it is scheduled when the queue first becomes nonempty, at the
burst's first transition); and the deferred flush callback then emits
`stateChanged` once per queued name, in order, and empties the queue. -/
theorem C3_emission_order (C : MachineClass) (fuel : Nat) (σ σ' : Machine)
    (hid : Nat) (t : String)
    (hIT : σ.fsm_inTransition = false) (hNS : σ.fsm_nextState = none)
    (hFI : flushInv σ)
    (hrun : handleGotoState C fuel σ hid t = (σ', none)) :
    σ'.emitted = σ.emitted ∧
    (∃ Δ, σ'.trace = σ.trace ++ Δ ∧
      σ'.fsm_toEmit = σ.fsm_toEmit ++ committedOf Δ ∧
      committedOf Δ = gotoCalledOf Δ) ∧
    flushInv σ' ∧
    (runFlush σ').emitted = σ'.emitted ++ σ'.fsm_toEmit ∧
    (runFlush σ').fsm_toEmit = [] ∧
    (runFlush σ').trace = σ'.trace ++ σ'.fsm_toEmit.map TraceEv.emittedEv := by
  unfold handleGotoState at hrun
  split at hrun
  · simp at hrun
  · rename_i σ1 hch
    obtain ⟨hr, hh, hv, hσ1⟩ := handleCheck_success hch
    have hq : QuietOk σ1 σ' t := by
      refine (step_ok C fuel _ _ _ hrun).2 ?_ ?_
      · rw [hσ1]; exact hIT
      · rw [hσ1]; exact hNS
    obtain ⟨_, _, hem, Δq, htq, hcq, hte, hfl⟩ := hq
    have hFI1 : flushInv σ1 := by
      unfold flushInv at hFI ⊢
      rw [hσ1]
      exact hFI
    have hFI' : flushInv σ' := hfl hFI1
    obtain ⟨f1, f2, f3, _⟩ := runFlush_spec hFI'
    refine ⟨?_, ⟨[TraceEv.gotoCalled t] ++ Δq, ?_, ?_, ?_⟩, hFI', f1, f2, f3⟩
    · rw [hem, hσ1]
    · rw [htq, hσ1]
      simp
    · rw [hte, hσ1]
      show σ.fsm_toEmit ++ committedOf Δq = σ.fsm_toEmit ++ _
      rw [committedOf_append, committedOf_goto]
      rfl
    · rw [committedOf_append, gotoCalledOf_append, committedOf_goto,
        gotoCalledOf_goto, hcq]
      rfl

/-- C1: on a successful transition started at rest, if the target's root
segment differs from the current root and a handle is live, the whole handle
chain is disconnected first — every recorded listener and timer is gone from
the live sets before the commit and entry-start marks enter the trace — and
the fresh handle is linked to nothing; if the root segment is unchanged,
nothing is removed before the entry function starts (the trace goes straight
from the pre-transition trace to the commit and entry-start marks) and the
fresh handle is linked to the previous one. -/
theorem C1_teardown_boundary (C : MachineClass) (fuel : Nat)
    (σ σ' : Machine) (t : String)
    (hIT : σ.fsm_inTransition = false)
    (hrun : step C (fuel + 1) (Call.goto t) σ = (σ', none)) :
    ((splitDot (σ.fsm_state.getD "")).headD "" ≠ (splitDot t).headD "" →
      ∀ hd, σ.fsm_handle = some hd →
      (∃ Δ, σ'.trace = (teardown σ t).trace
        ++ [TraceEv.committed t, TraceEv.entryStart t] ++ Δ) ∧
      (∃ hr', σ'.handles[σ.handles.length]? = some hr' ∧ hr'.fsh_link = none) ∧
      (chainOk σ.handles.length σ hd = true →
       σ.activeListeners.Nodup → σ.activeTimeouts.Nodup →
       σ.activeIntervals.Nodup → σ.activeImmediates.Nodup →
       (∀ x ∈ chainListeners σ.handles.length σ hd,
         x ∉ (teardown σ t).activeListeners) ∧
       (∀ x ∈ chainTimeouts σ.handles.length σ hd,
         x ∉ (teardown σ t).activeTimeouts) ∧
       (∀ x ∈ chainIntervals σ.handles.length σ hd,
         x ∉ (teardown σ t).activeIntervals) ∧
       (∀ x ∈ chainImmediates σ.handles.length σ hd,
         x ∉ (teardown σ t).activeImmediates))) ∧
    ((splitDot (σ.fsm_state.getD "")).headD "" = (splitDot t).headD "" →
      (∃ Δ, σ'.trace = σ.trace
        ++ [TraceEv.committed t, TraceEv.entryStart t] ++ Δ) ∧
      (∃ hr', σ'.handles[σ.handles.length]? = some hr'
        ∧ hr'.fsh_link = σ.fsm_handle)) := by
  obtain ⟨body, hcommit⟩ := step_goto_success C fuel t σ σ' hIT hrun
  obtain ⟨⟨Δc, htc⟩, ⟨hr', hh', hl'⟩⟩ :=
    step_commit_trace C fuel t body (teardown σ t) σ' hcommit
  rw [teardown_handles_length σ t] at hh'
  constructor
  · intro hdiff hd hhd
    refine ⟨⟨Δc, htc⟩, ⟨hr', hh', ?_⟩, ?_⟩
    · rw [hl', teardown_eq_differ hdiff hhd]
    · intro hok n1 n2 n3 n4
      have hrem := disconnectChain_removes σ.handles.length σ hd hok n1 n2 n3 n4
      rw [teardown_eq_differ hdiff hhd]
      exact hrem
  · intro hsame
    rw [teardown_eq_same hsame] at htc hl'
    exact ⟨⟨Δc, htc⟩, ⟨hr', hh', hl'⟩⟩

/-- C10: re-entry into the current state through the live handle: the root
segment is unchanged so no scope is torn down (no removals enter the trace;
the registered listeners are retained and only extended), the entry function
runs again with a freshly allocated handle linked to the previous one, the
state name is appended to history a second time, and a second `stateChanged`
emission for it is queued. -/
theorem C10_reentry_same_state (C : MachineClass) (fuel : Nat)
    (σ σ' : Machine) (hid : Nat) (s : String) (hr : HandleRec) (ed : EntryDef)
    (hstate : σ.fsm_state = some s)
    (hhandle : σ.fsm_handle = some hid)
    (hh : σ.handles[hid]? = some hr)
    (hv : hr.fsh_valid = true)
    (hvt : hr.fsh_validTransitions = none)
    (hIT : σ.fsm_inTransition = false)
    (hNS : σ.fsm_nextState = none)
    (hsplit : splitDot s = [s])
    (hlook : assocLookup C.states s = some ed)
    (hng : hasGoto ed.body = false)
    (hrun : handleGotoState C (fuel + 1) σ hid s = (σ', none)) :
    σ'.fsm_state = some s ∧
    σ'.fsm_history = pushHistory σ.fsm_history s ∧
    σ'.fsm_toEmit = σ.fsm_toEmit ++ [s] ∧
    (∃ Δ, σ'.trace = σ.trace ++ [TraceEv.gotoCalled s,
      TraceEv.committed s, TraceEv.entryStart s] ++ Δ) ∧
    (∃ hr', σ'.handles[σ.handles.length]? = some hr'
      ∧ hr'.fsh_link = some hid ∧ hr'.fsh_state = s) ∧
    (∃ L, σ'.activeListeners = σ.activeListeners ++ L) := by
  unfold handleGotoState at hrun
  split at hrun
  · simp at hrun
  · rename_i σ1 hch
    obtain ⟨hr0, hh0, _, hσ1⟩ := handleCheck_success hch
    have hIT1 : σ1.fsm_inTransition = false := by rw [hσ1]; exact hIT
    have hstate1 : σ1.fsm_state = some s := by rw [hσ1]; exact hstate
    have hNS1 : σ1.fsm_nextState = none := by rw [hσ1]; exact hNS
    have hlen1 : σ1.handles.length = σ.handles.length := by rw [hσ1]; simp
    have hhandle1 : σ1.fsm_handle = some hid := by rw [hσ1]; exact hhandle
    have htr1 : σ1.trace = σ.trace ++ [TraceEv.gotoCalled s] := by rw [hσ1]
    have hact1 : σ1.activeListeners = σ.activeListeners := by rw [hσ1]
    have hTE1 : σ1.fsm_toEmit = σ.fsm_toEmit := by rw [hσ1]
    have hhist1 : σ1.fsm_history = σ.fsm_history := by rw [hσ1]
    rw [step_goto_commit_root C fuel s σ1 hIT1 hsplit hlook] at hrun
    rw [teardown_eq_same (by rw [hstate1]; simp [hsplit])] at hrun
    obtain ⟨c1, c2, c3, _, ⟨Δ, c5⟩, ⟨hr', ch1, ch2, ch3⟩, ⟨L, c7⟩⟩ :=
      step_commit_nogoto C fuel s ed.body σ1 σ' hng hNS1 hrun
    rw [hlen1] at ch1
    refine ⟨c1, ?_, ?_, ⟨Δ, ?_⟩, ⟨hr', ch1, ?_, ch3⟩, ⟨L, ?_⟩⟩
    · rw [c2, hhist1]
    · rw [c3, hTE1]
    · rw [c5, htr1]
      simp
    · rw [ch2, hhandle1]
    · rw [c7, hact1]

/-- C5 (amended): resolution looks only at the first two segments of the
target name.  A name with more than one dot is rejected — leaving the state
unchanged — exactly when its root has no entry function or its second
segment is not a sub-state of the root; when `root.sub` resolves, the extra
segments are ignored and the full multi-dot name is committed as the current
state. -/
theorem C5_multidot_resolution (C : MachineClass) (fuel : Nat) (σ : Machine)
    (t p0 p1 : String) (rest : List String)
    (hIT : σ.fsm_inTransition = false)
    (hsplit : splitDot t = p0 :: p1 :: rest) :
    (assocLookup C.states p0 = none →
      step C (fuel + 1) (Call.goto t) σ
        = (teardown σ t, some (JsErr.err ("Unknown FSM state: " ++ t)))
      ∧ (teardown σ t).fsm_state = σ.fsm_state) ∧
    (∀ ed, assocLookup C.states p0 = some ed → assocLookup ed.subs p1 = none →
      step C (fuel + 1) (Call.goto t) σ
        = (teardown σ t, some (JsErr.err ("Unknown FSM sub-state: " ++ t)))
      ∧ (teardown σ t).fsm_state = σ.fsm_state) ∧
    (∀ ed b, assocLookup C.states p0 = some ed →
      assocLookup ed.subs p1 = some b →
      step C (fuel + 1) (Call.goto t) σ
        = step C fuel (Call.commit t b) (teardown σ t)) ∧
    (∀ ed b σ', assocLookup C.states p0 = some ed →
      assocLookup ed.subs p1 = some b →
      step C (fuel + 1) (Call.goto t) σ = (σ', none) →
      ∃ Δ, σ'.trace = (teardown σ t).trace
        ++ [TraceEv.committed t, TraceEv.entryStart t] ++ Δ) := by
  have hstate : (teardown σ t).fsm_state = σ.fsm_state :=
    (teardown_silent σ t).1
  have hred : step C (fuel + 1) (Call.goto t) σ
      = (match assocLookup C.states p0 with
         | none => (teardown σ t, some (JsErr.err ("Unknown FSM state: " ++ t)))
         | some ed =>
           match assocLookup ed.subs p1 with
           | none =>
             (teardown σ t, some (JsErr.err ("Unknown FSM sub-state: " ++ t)))
           | some b => step C fuel (Call.commit t b) (teardown σ t)) := by
    simp only [step, hIT, hsplit]
    simp only [Bool.false_eq_true, if_false, List.headD_cons,
      List.getElem?_cons_succ, List.getElem?_cons_zero]
  refine ⟨?_, ?_, ?_, ?_⟩
  · intro h0
    rw [hred, h0]
    exact ⟨rfl, hstate⟩
  · intro ed h0 h1
    rw [hred, h0]
    refine ⟨?_, hstate⟩
    simp only [h1]
  · intro ed b h0 h1
    rw [hred, h0]
    simp only [h1]
  · intro ed b σ' h0 h1 hrun
    rw [hred, h0] at hrun
    simp only [h1] at hrun
    exact (step_commit_trace C fuel t b (teardown σ t) σ' hrun).1

/-- Machine class for the C5 counterexample: root state `a` with sub-state
`a.b`, both with empty entry functions. -/
def C5class : MachineClass := ⟨[("a", ⟨[], [("b", [])]⟩)]⟩

/-- The C5 counterexample machine, freshly constructed in state `a`. -/
def C5start : Machine := (construct C5class 10 [] "a").1

/-- C5 (counterexample to the claim as stated): from state `a`, a transition
to the three-segment name `a.b.c` (two dots) is *not* rejected: it succeeds
and `a.b.c` is committed as the current state, because resolution stops at
the second segment. -/
theorem C5_counterexample :
    (handleGotoState C5class 10 C5start 0 "a.b.c").2 = none ∧
    (handleGotoState C5class 10 C5start 0 "a.b.c").1.fsm_state
      = some "a.b.c" := by
  constructor
  · decide
  · decide

/-- C7 (amended): handle-level rejections (already-used handle and
`validTransitions` violations) happen before anything changes — the machine
is returned untouched, so the `valid` flag has not flipped.  But a
resolution failure (unknown state) is only detected *after* the handle's
`valid` flag flips and after the root-boundary tear-down: the error
propagates with the state uncommitted while the used handle is already
invalid and, on a root-boundary attempt, the scope is already gone
(`fsm_handle` cleared). -/
theorem C7_commit_atomicity (C : MachineClass) (fuel : Nat) (σ : Machine)
    (hid : Nat) (t : String) (hr : HandleRec)
    (hh : σ.handles[hid]? = some hr) :
    (hr.fsh_valid = false → ∀ z, hr.fsh_nextState = some z →
      handleGotoState C fuel σ hid t = (σ, some (JsErr.err
        ("FSM attempted to leave state " ++ hr.fsh_state ++ " towards " ++ t
          ++ " via a handle that was already used to enter state " ++ z)))) ∧
    (∀ vts, hr.fsh_valid = true → hr.fsh_validTransitions = some vts →
      t ∉ vts →
      handleGotoState C fuel σ hid t = (σ, some (JsErr.err
        ("Invalid FSM transition: " ++ hr.fsh_state ++ " => " ++ t)))) ∧
    (hr.fsh_valid = true → hr.fsh_validTransitions = none →
      σ.fsm_inTransition = false →
      assocLookup C.states ((splitDot t).headD "") = none →
      ∀ σ' e, handleGotoState C (fuel + 1) σ hid t = (σ', e) →
        e = some (JsErr.err ("Unknown FSM state: " ++ t)) ∧
        σ'.fsm_state = σ.fsm_state ∧
        (∃ hr', σ'.handles[hid]? = some hr' ∧ hr'.fsh_valid = false) ∧
        ((splitDot (σ.fsm_state.getD "")).headD "" ≠ (splitDot t).headD "" →
          σ'.fsm_handle = none)) := by
  refine ⟨?_, ?_, ?_⟩
  · intro hv z hz
    unfold handleGotoState
    rw [handleCheck_invalid t hh hv, hz]
    rfl
  · intro vts hv hvt hm
    unfold handleGotoState
    rw [handleCheck_blocked hh hv hvt hm]
  · intro hv hvt hITf hlook σ' e hrun
    unfold handleGotoState at hrun
    split at hrun
    · rename_i σ1 e1 hch
      rw [handleCheck_ok hh hv (Or.inl hvt)] at hch
      injection hch with _ hbad
      simp at hbad
    · rename_i σ1 hch
      obtain ⟨hr0, hh0, _, hσ1⟩ := handleCheck_success hch
      have hr0eq : hr0 = hr := by
        rw [hh] at hh0
        exact (Option.some.inj hh0).symm
      rw [hr0eq] at hσ1
      have hIT1 : σ1.fsm_inTransition = false := by rw [hσ1]; exact hITf
      have hred : step C (fuel + 1) (Call.goto t) σ1
          = (teardown σ1 t, some (JsErr.err ("Unknown FSM state: " ++ t))) := by
        simp only [step, hIT1]
        simp only [Bool.false_eq_true, if_false]
        rw [hlook]
      rw [hred] at hrun
      injection hrun with hσ' he
      subst hσ'
      refine ⟨he.symm, ?_, ?_, ?_⟩
      · have h1 : (teardown σ1 t).fsm_state = σ1.fsm_state :=
          (teardown_silent σ1 t).1
        rw [h1, hσ1]
      · have hlt : hid < σ.handles.length := by
          rcases List.getElem?_eq_some.mp hh with ⟨hlt, _⟩
          exact hlt
        have hs1 : σ1.handles[hid]?
            = some { hr with fsh_valid := false, fsh_nextState := some t } := by
          rw [hσ1]
          exact List.getElem?_set_eq_of_lt _ hlt
        obtain ⟨hr', hh', _, _, hfr⟩ := teardown_slotStable σ1 t _ _ hs1
        exact ⟨hr', hh', (hfr rfl).1⟩
      · intro hdiff
        refine teardown_handle_differ ?_
        rw [hσ1]
        exact hdiff

/-- Machine class for the C7 counterexample: state `a` whose entry function
registers a listener on the FSM itself. -/
def C7class : MachineClass := ⟨[("a", ⟨[Action.on 0 "x"], []⟩)]⟩

/-- The C7 counterexample machine, in state `a` with one live listener. -/
def C7start : Machine := (construct C7class 10 [] "a").1

/-- C7 (counterexample to the claim as stated): a `gotoState` to the unknown
root `zzz` is rejected, yet the outgoing handle has already been invalidated
(`fsh_valid = false`), the scope torn down (the listener registered by `a`
is gone and `fsm_handle` is cleared) while the state is still the old,
uncommitted `a` — so a rejection can leave the handle invalidated and the
scope gone. -/
theorem C7_counterexample :
    (handleGotoState C7class 10 C7start 0 "zzz").2
      = some (JsErr.err "Unknown FSM state: zzz") ∧
    (handleGotoState C7class 10 C7start 0 "zzz").1.fsm_state = some "a" ∧
    ((handleGotoState C7class 10 C7start 0 "zzz").1.handles[0]?).map
      HandleRec.fsh_valid = some false ∧
    (handleGotoState C7class 10 C7start 0 "zzz").1.activeListeners = [] ∧
    (handleGotoState C7class 10 C7start 0 "zzz").1.fsm_handle = none := by
  refine ⟨?_, ?_, ?_, ?_, ?_⟩ <;> decide

/-- C8 (amended): when a state entry function throws, the exception
propagates to the caller of the transition with the state already set to the
new name and the freshly allocated handle live (valid), but `fsm_inTransition`
is left `true` — the source has no unwind protection, so the flag is *not*
cleared and the re-entrancy guard will queue (and an assertion will reject)
subsequent transitions. -/
theorem C8_entry_throw (C : MachineClass) (fuel : Nat) (σ σ' : Machine)
    (e : Option JsErr) (t m : String) (rest : List Action) (ed : EntryDef)
    (hIT : σ.fsm_inTransition = false)
    (hsplit : splitDot t = [t])
    (hlook : assocLookup C.states t = some ed)
    (hbody : ed.body = Action.throwErr m :: rest)
    (hrun : step C (fuel + 4) (Call.goto t) σ = (σ', e)) :
    e = some (JsErr.err m) ∧
    σ'.fsm_state = some t ∧
    σ'.fsm_inTransition = true ∧
    σ'.fsm_handle = some ((teardown σ t).handles.length) ∧
    (∃ hr', σ'.handles[(teardown σ t).handles.length]? = some hr'
      ∧ hr'.fsh_valid = true ∧ hr'.fsh_state = t) := by
  rw [step_goto_commit_root C (fuel + 3) t σ hIT hsplit hlook] at hrun
  rw [hbody] at hrun
  simp only [step] at hrun
  injection hrun with h1 h2
  subst h1
  refine ⟨h2.symm, rfl, rfl, rfl, ?_⟩
  refine ⟨newHandle t (teardown σ t).fsm_handle, ?_, rfl, rfl⟩
  show ((teardown σ t).handles
    ++ [newHandle t (teardown σ t).fsm_handle])[(teardown σ t).handles.length]?
    = _
  simp

/-- Machine class for the C8 counterexample: `a` with an empty entry
function and `b` whose entry function throws. -/
def C8class : MachineClass :=
  ⟨[("a", ⟨[], []⟩), ("b", ⟨[Action.throwErr "boom"], []⟩)]⟩

/-- The C8 counterexample machine, at rest in state `a`. -/
def C8start : Machine := (construct C8class 10 [] "a").1

/-- C8 (counterexample to the claim as stated): transitioning to `b`, whose
entry function throws, propagates the exception with the state set to `b`
and the new handle live — but `fsm_inTransition` is `true` afterwards, not
cleared as the claim asserts. -/
theorem C8_counterexample :
    (handleGotoState C8class 10 C8start 0 "b").2
      = some (JsErr.err "boom") ∧
    (handleGotoState C8class 10 C8start 0 "b").1.fsm_state = some "b" ∧
    ((handleGotoState C8class 10 C8start 0 "b").1.handles[1]?).map
      HandleRec.fsh_valid = some true ∧
    (handleGotoState C8class 10 C8start 0 "b").1.fsm_inTransition = true := by
  refine ⟨?_, ?_, ?_, ?_⟩ <;> decide

/-! ### Witnesses: each claim theorem applied at a concrete machine -/

/-- Witness class for C1: state `a` registers one listener and one timer of
each kind; `next` is empty, so `a → next` crosses a root boundary. -/
def C1class : MachineClass :=
  ⟨[("a", ⟨[Action.on 0 "x", Action.timeout 10, Action.interval 10,
            Action.immediate], []⟩),
    ("next", ⟨[], []⟩)]⟩

def C1m0 : Machine := (construct C1class 10 [] "a").1

def C1m1 : Machine := (step C1class 11 (Call.goto "next") C1m0).1

theorem C1_witness :
    C1m0.fsm_inTransition = false ∧
    step C1class 11 (Call.goto "next") C1m0 = (C1m1, none) ∧
    (splitDot (C1m0.fsm_state.getD "")).headD ""
      ≠ (splitDot "next").headD "" ∧
    C1m0.fsm_handle = some 0 ∧
    chainOk C1m0.handles.length C1m0 0 = true ∧
    ((∃ Δ, C1m1.trace = (teardown C1m0 "next").trace
        ++ [TraceEv.committed "next", TraceEv.entryStart "next"] ++ Δ) ∧
     (∃ hr', C1m1.handles[C1m0.handles.length]? = some hr'
        ∧ hr'.fsh_link = none) ∧
     ((∀ x ∈ chainListeners C1m0.handles.length C1m0 0,
         x ∉ (teardown C1m0 "next").activeListeners) ∧
      (∀ x ∈ chainTimeouts C1m0.handles.length C1m0 0,
         x ∉ (teardown C1m0 "next").activeTimeouts) ∧
      (∀ x ∈ chainIntervals C1m0.handles.length C1m0 0,
         x ∉ (teardown C1m0 "next").activeIntervals) ∧
      (∀ x ∈ chainImmediates C1m0.handles.length C1m0 0,
         x ∉ (teardown C1m0 "next").activeImmediates))) := by
  have H := C1_teardown_boundary C1class 10 C1m0 C1m1 "next"
    (by decide) (by decide)
  have Ha := H.1 (by decide) 0 (by decide)
  exact ⟨by decide, by decide, by decide, by decide, by decide,
    Ha.1, Ha.2.1,
    Ha.2.2 (by decide) (by decide) (by decide) (by decide) (by decide)⟩

/-- Witness class for C2: two plain states. -/
def C2class : MachineClass := ⟨[("a", ⟨[], []⟩), ("next", ⟨[], []⟩)]⟩

def C2m0 : Machine := (construct C2class 10 [] "a").1

def C2m1 : Machine := (handleGotoState C2class 10 C2m0 0 "next").1

/-- The used-up handle record of `C2m1`. -/
def C2hr : HandleRec :=
  { fsh_state := "a", fsh_valid := false, fsh_link := none,
    fsh_listeners := [], fsh_timeouts := [], fsh_intervals := [],
    fsh_immediates := [], fsh_validTransitions := none,
    fsh_nextState := some "next" }

theorem C2_witness :
    (∃ hr', C2m1.handles[0]? = some hr' ∧ hr'.fsh_valid = false ∧
      hr'.fsh_nextState = some "next") ∧
    (C2m1.handles[0]? = some C2hr ∧ C2hr.fsh_valid = false ∧
      C2hr.fsh_nextState = some "next") ∧
    handleGotoState C2class 10 C2m1 0 "a"
      = (C2m1, some (JsErr.err ("FSM attempted to leave state "
          ++ C2hr.fsh_state ++ " towards " ++ "a"
          ++ " via a handle that was already used to enter state "
          ++ "next"))) :=
  ⟨(C2_handle_single_use C2class 10 C2m0 0 "next").1 C2m1 (by decide),
   ⟨by decide, by decide, by decide⟩,
   (C2_handle_single_use C2class 10 C2m1 0 "next").2 C2hr "next" "a"
     (by decide) (by decide) (by decide)⟩

/-- Witness class for C3: a three-transition synchronous burst
`a → b → c` triggered from the resting state `s0`. -/
def C3class : MachineClass :=
  ⟨[("s0", ⟨[], []⟩), ("a", ⟨[Action.goto "b"], []⟩),
    ("b", ⟨[Action.goto "c"], []⟩), ("c", ⟨[], []⟩)]⟩

def C3m0 : Machine := (construct C3class 20 [] "s0").1

def C3m1 : Machine := (handleGotoState C3class 20 C3m0 0 "a").1

theorem C3_witness :
    C3m0.fsm_inTransition = false ∧ C3m0.fsm_nextState = none ∧
    flushInv C3m0 ∧
    handleGotoState C3class 20 C3m0 0 "a" = (C3m1, none) ∧
    (C3m1.emitted = C3m0.emitted ∧
     (∃ Δ, C3m1.trace = C3m0.trace ++ Δ ∧
       C3m1.fsm_toEmit = C3m0.fsm_toEmit ++ committedOf Δ ∧
       committedOf Δ = gotoCalledOf Δ) ∧
     flushInv C3m1 ∧
     (runFlush C3m1).emitted = C3m1.emitted ++ C3m1.fsm_toEmit ∧
     (runFlush C3m1).fsm_toEmit = [] ∧
     (runFlush C3m1).trace
       = C3m1.trace ++ C3m1.fsm_toEmit.map TraceEv.emittedEv) :=
  ⟨by decide, by decide, by unfold flushInv; decide, by decide,
   C3_emission_order C3class 20 C3m0 C3m1 0 "a"
     (by decide) (by decide) (by unfold flushInv; decide) (by decide)⟩

/-- Witness class for C4: a burst machine plus a mid-transition machine. -/
def C4class : MachineClass :=
  ⟨[("s0", ⟨[], []⟩), ("a", ⟨[Action.goto "b"], []⟩), ("b", ⟨[], []⟩)]⟩

def C4m0 : Machine := (construct C4class 20 [] "s0").1

def C4m1 : Machine := (handleGotoState C4class 20 C4m0 0 "a").1

/-- A machine observed mid-transition (as entry functions see it). -/
def C4q : Machine := { C4m0 with fsm_inTransition := true }

def C4q2 : Machine := { C4q with fsm_nextState := some "x" }

theorem C4_witness :
    (C4q.fsm_inTransition = true ∧ C4q.fsm_nextState = none ∧
      step C4class 21 (Call.goto "b") C4q
        = ({ C4q with fsm_nextState := some "b" }, none)) ∧
    (C4q2.fsm_inTransition = true ∧ C4q2.fsm_nextState = some "x" ∧
      step C4class 21 (Call.goto "b") C4q2 = (C4q2, some JsErr.assertFailed)) ∧
    (C4m0.fsm_inTransition = false ∧ C4m0.fsm_nextState = none ∧
      handleGotoState C4class 20 C4m0 0 "a" = (C4m1, none) ∧
      ∃ Δ, C4m1.trace = C4m0.trace ++ Δ ∧ committedOf Δ = gotoCalledOf Δ) :=
  ⟨⟨by decide, by decide,
    (C4_reentrant_queue_order C4class 20 C4q C4m1 0 "b").1
      (by decide) (by decide)⟩,
   ⟨by decide, by decide,
    (C4_reentrant_queue_order C4class 20 C4q2 C4m1 0 "b").2.1
      (by decide) "x" (by decide)⟩,
   ⟨by decide, by decide, by decide,
    (C4_reentrant_queue_order C4class 20 C4m0 C4m1 0 "a").2.2
      (by decide) (by decide) (by decide)⟩⟩

/-- The `a.b` sub-state entry of the C5 witness class. -/
def C5ed : EntryDef := ⟨[], [("b", [])]⟩

def C5m1 : Machine := (step C5class 11 (Call.goto "a.b.c") C5start).1

theorem C5_witness :
    C5start.fsm_inTransition = false ∧
    splitDot "a.b.c" = "a" :: "b" :: ["c"] ∧
    assocLookup C5class.states "a" = some C5ed ∧
    assocLookup C5ed.subs "b" = some [] ∧
    step C5class 11 (Call.goto "a.b.c") C5start = (C5m1, none) ∧
    step C5class 11 (Call.goto "a.b.c") C5start
      = step C5class 10 (Call.commit "a.b.c" []) (teardown C5start "a.b.c") ∧
    (∃ Δ, C5m1.trace = (teardown C5start "a.b.c").trace
      ++ [TraceEv.committed "a.b.c", TraceEv.entryStart "a.b.c"] ++ Δ) := by
  have H := C5_multidot_resolution C5class 10 C5start "a.b.c" "a" "b" ["c"]
    (by decide) (by decide)
  exact ⟨by decide, by decide, by decide, by decide, by decide,
    H.2.2.1 C5ed [] (by decide) (by decide),
    H.2.2.2 C5ed [] C5m1 (by decide) (by decide) (by decide)⟩

/-- Witness class for C6: state `a` restricts its transitions to `next`. -/
def C6class : MachineClass :=
  ⟨[("a", ⟨[Action.validTransitions ["next"]], []⟩), ("next", ⟨[], []⟩)]⟩

def C6m0 : Machine := (construct C6class 10 [] "a").1

/-- The restricted live handle of `C6m0`. -/
def C6hr : HandleRec :=
  { fsh_state := "a", fsh_valid := true, fsh_link := none,
    fsh_listeners := [], fsh_timeouts := [], fsh_intervals := [],
    fsh_immediates := [], fsh_validTransitions := some ["next"],
    fsh_nextState := none }

theorem C6_witness :
    (C6m0.handles[0]? = some C6hr ∧ C6hr.fsh_valid = true ∧
      C6hr.fsh_validTransitions = some ["next"] ∧ "next2" ∉ ["next"]) ∧
    handleGotoState C6class 10 C6m0 0 "next2"
      = (C6m0, some (JsErr.err ("Invalid FSM transition: "
          ++ C6hr.fsh_state ++ " => " ++ "next2"))) :=
  ⟨⟨by decide, by decide, by decide, by decide⟩,
   C6_validTransitions_enforced C6class 10 C6m0 0 "next2" C6hr ["next"]
     (by decide) (by decide) (by decide) (by decide)⟩

/-- The used-up handle of the machine left behind by the rejected `zzz`
transition in the C7 witness. -/
def C7m1 : Machine := (handleGotoState C7class 11 C7start 0 "zzz").1

def C7e : Option JsErr := (handleGotoState C7class 11 C7start 0 "zzz").2

def C7hr0 : HandleRec :=
  { fsh_state := "a", fsh_valid := true, fsh_link := none,
    fsh_listeners := [(0, "x", 0)], fsh_timeouts := [], fsh_intervals := [],
    fsh_immediates := [], fsh_validTransitions := none,
    fsh_nextState := none }

def C7hrUsed : HandleRec :=
  { fsh_state := "a", fsh_valid := false, fsh_link := none,
    fsh_listeners := [], fsh_timeouts := [], fsh_intervals := [],
    fsh_immediates := [], fsh_validTransitions := none,
    fsh_nextState := some "zzz" }

theorem C7_witness :
    (C7start.handles[0]? = some C7hr0 ∧ C7hr0.fsh_valid = true ∧
      C7hr0.fsh_validTransitions = none ∧ C7start.fsm_inTransition = false ∧
      assocLookup C7class.states ((splitDot "zzz").headD "") = none ∧
      handleGotoState C7class 11 C7start 0 "zzz" = (C7m1, C7e)) ∧
    (C7e = some (JsErr.err ("Unknown FSM state: " ++ "zzz")) ∧
      C7m1.fsm_state = C7start.fsm_state ∧
      (∃ hr', C7m1.handles[0]? = some hr' ∧ hr'.fsh_valid = false) ∧
      ((splitDot (C7start.fsm_state.getD "")).headD ""
          ≠ (splitDot "zzz").headD "" →
        C7m1.fsm_handle = none)) ∧
    (C7m1.handles[0]? = some C7hrUsed ∧ C7hrUsed.fsh_valid = false ∧
      C7hrUsed.fsh_nextState = some "zzz" ∧
      handleGotoState C7class 11 C7m1 0 "q"
        = (C7m1, some (JsErr.err ("FSM attempted to leave state "
            ++ C7hrUsed.fsh_state ++ " towards " ++ "q"
            ++ " via a handle that was already used to enter state "
            ++ "zzz")))) := by
  have H := (C7_commit_atomicity C7class 10 C7start 0 "zzz" C7hr0
    (by decide)).2.2 (by decide) (by decide) (by decide) (by decide)
    C7m1 C7e (by decide)
  have H2 := (C7_commit_atomicity C7class 11 C7m1 0 "q" C7hrUsed
    (by decide)).1 (by decide) "zzz" (by decide)
  exact ⟨⟨by decide, by decide, by decide, by decide, by decide, by decide⟩,
    H, ⟨by decide, by decide, by decide, H2⟩⟩

/-- The throwing entry function of the C8 witness. -/
def C8ed : EntryDef := ⟨[Action.throwErr "boom"], []⟩

def C8m1 : Machine := (step C8class 10 (Call.goto "b") C8start).1

def C8e : Option JsErr := (step C8class 10 (Call.goto "b") C8start).2

theorem C8_witness :
    (C8start.fsm_inTransition = false ∧ splitDot "b" = ["b"] ∧
      assocLookup C8class.states "b" = some C8ed ∧
      C8ed.body = Action.throwErr "boom" :: [] ∧
      step C8class 10 (Call.goto "b") C8start = (C8m1, C8e)) ∧
    (C8e = some (JsErr.err "boom") ∧
      C8m1.fsm_state = some "b" ∧
      C8m1.fsm_inTransition = true ∧
      C8m1.fsm_handle = some ((teardown C8start "b").handles.length) ∧
      (∃ hr', C8m1.handles[(teardown C8start "b").handles.length]? = some hr'
        ∧ hr'.fsh_valid = true ∧ hr'.fsh_state = "b")) :=
  ⟨⟨by decide, by decide, by decide, by decide, by decide⟩,
   C8_entry_throw C8class 6 C8start C8m1 C8e "b" "boom" [] C8ed
     (by decide) (by decide) (by decide) (by decide) (by decide)⟩

theorem C9_witness :
    adapterRun (fsm_cb_wrapper (JSVal.vObj 1) [JSVal.vNum 7]) (JSVal.vObj 2)
      = ⟨JSVal.vObj 1, [JSVal.vNum 7], true⟩ ∧
    adapterCb (JSVal.vStr "e" :: [JSVal.vNum 2])
      = [("error", [JSVal.vStr "e"])] ∧
    adapterCb (JSVal.vNull :: [JSVal.vNum 2])
      = [("return", [JSVal.vNum 2])] ∧
    adapterCb [] = [("return", [])] :=
  ⟨(C9_wrap_adapter (JSVal.vObj 1) (JSVal.vObj 2) (JSVal.vStr "e")
      [JSVal.vNum 7] [JSVal.vNum 2]).1,
   (C9_wrap_adapter (JSVal.vObj 1) (JSVal.vObj 2) (JSVal.vStr "e")
      [JSVal.vNum 7] [JSVal.vNum 2]).2.1 (by decide),
   (C9_wrap_adapter (JSVal.vObj 1) (JSVal.vObj 2) JSVal.vNull
      [JSVal.vNum 7] [JSVal.vNum 2]).2.2.1 (by decide),
   (C9_wrap_adapter (JSVal.vObj 1) (JSVal.vObj 2) JSVal.vNull
      [JSVal.vNum 7] [JSVal.vNum 2]).2.2.2⟩

/-- Witness class for C10: `initial` registers a listener and can be
re-entered (the test's re-entry scenario). -/
def C10class : MachineClass := ⟨[("initial", ⟨[Action.on 0 "foo"], []⟩)]⟩

def C10ed : EntryDef := ⟨[Action.on 0 "foo"], []⟩

def C10m0 : Machine := (construct C10class 10 [] "initial").1

def C10m1 : Machine := (handleGotoState C10class 11 C10m0 0 "initial").1

/-- The live handle of `C10m0`. -/
def C10hr : HandleRec :=
  { fsh_state := "initial", fsh_valid := true, fsh_link := none,
    fsh_listeners := [(0, "foo", 0)], fsh_timeouts := [], fsh_intervals := [],
    fsh_immediates := [], fsh_validTransitions := none,
    fsh_nextState := none }

theorem C10_witness :
    (C10m0.fsm_state = some "initial" ∧ C10m0.fsm_handle = some 0 ∧
      C10m0.handles[0]? = some C10hr ∧ C10hr.fsh_valid = true ∧
      hasGoto C10ed.body = false ∧
      handleGotoState C10class 11 C10m0 0 "initial" = (C10m1, none)) ∧
    (C10m1.fsm_state = some "initial" ∧
      C10m1.fsm_history = pushHistory C10m0.fsm_history "initial" ∧
      C10m1.fsm_toEmit = C10m0.fsm_toEmit ++ ["initial"] ∧
      (∃ Δ, C10m1.trace = C10m0.trace ++ [TraceEv.gotoCalled "initial",
        TraceEv.committed "initial", TraceEv.entryStart "initial"] ++ Δ) ∧
      (∃ hr', C10m1.handles[C10m0.handles.length]? = some hr'
        ∧ hr'.fsh_link = some 0 ∧ hr'.fsh_state = "initial") ∧
      (∃ L, C10m1.activeListeners = C10m0.activeListeners ++ L)) :=
  ⟨⟨by decide, by decide, by decide, by decide, by decide, by decide⟩,
   C10_reentry_same_state C10class 10 C10m0 C10m1 0 "initial" C10hr C10ed
     (by decide) (by decide) (by decide) (by decide) (by decide)
     (by decide) (by decide) (by decide) (by decide) (by decide) (by decide)⟩

end Moore
